import Mathlib

/-!
Package `branching`: a conditional request router.

A shallow embedding of `branching.go`.  The plugin holds a compiled predicate
(`matcher`), the default handler (`next`) and an alternate chain of middlewares
linked onto that same default handler (`branch`).  `New` builds the value,
`ServeHTTP` routes one request.

Conventions of the embedding.

* A Go `error` is a value of `GoError`; the `nil` error is `none`.
* A `http.Handler` is a transformer of the world `W` (everything a handler can
  observe or change: the response written so far, the sinks of the loggers),
  given the response writer handle and the request.
* What `ServeHTTP` and `New` do themselves is recorded as the list of the calls
  they make, in program order; `Branching.run` gives those calls their effect.
* A Go map is a finite list of entries with distinct keys; `range` over it
  yields the entries in an order chosen by the runtime, here by an iteration
  seed.
-/

namespace branching

/-! ## Errors -/

/-- A Go `error` value: either a plain message, or a message wrapping a cause
(the result of `fmt.Errorf` with the `%w` verb). -/
inductive GoError where
  | new (msg : String)
  | wrap (msg : String) (cause : GoError)
  deriving DecidableEq, Repr

/-- The method `Error()`: the message of the error. -/
def GoError.Error : GoError → String
  | .new msg => msg
  | .wrap msg _ => msg

/-- The method `Unwrap()`: the wrapped cause, if there is one. -/
def GoError.Unwrap : GoError → Option GoError
  | .new _ => none
  | .wrap _ cause => some cause

/-! ## Handlers and the plugin value -/

/-- A `http.Handler`: `ServeHTTP(rw, req)` acting on the world. -/
abbrev Handler (RW Req W : Type) := RW → Req → W → W

/-- A compiled predicate, `*bexpr.Evaluator`: its method `Evaluate` returns a
boolean together with an error (`none` for `nil`). -/
structure Evaluator (Req : Type) where
  Evaluate : Req → Bool × Option GoError

/-- The struct `Branching`. -/
structure Branching (RW Req W : Type) where
  name : String
  next : Handler RW Req W
  branch : Handler RW Req W
  matcher : Evaluator Req

/-- The calls `ServeHTTP` makes itself. -/
inductive Call (RW Req : Type) where
  | logPrintf (msg : String)
  | branchServeHTTP (rw : RW) (req : Req)
  | nextServeHTTP (rw : RW) (req : Req)
  deriving DecidableEq, Repr

/-- Whether a call is the invocation of one of the two handlers. -/
def Call.isHandlerCall {RW Req : Type} : Call RW Req → Bool
  | .logPrintf _ => false
  | .branchServeHTTP _ _ => true
  | .nextServeHTTP _ _ => true

/-- Whether a call is an invocation of the `branch` handler. -/
def Call.isBranchCall {RW Req : Type} : Call RW Req → Bool
  | .branchServeHTTP _ _ => true
  | _ => false

/-- Whether a call is an invocation of the `next` handler. -/
def Call.isNextCall {RW Req : Type} : Call RW Req → Bool
  | .nextServeHTTP _ _ => true
  | _ => false

/-- Whether a call is a diagnostic written through `Logger`. -/
def Call.isLogCall {RW Req : Type} : Call RW Req → Bool
  | .logPrintf _ => true
  | _ => false

/-- The method `(*Branching).ServeHTTP`: the calls it makes, in order.

```go
match, err := e.matcher.Evaluate(req)
if err != nil {
    Logger.Printf("ignoring branch, unable to match request: %v", err)
}
if match {
    e.branch.ServeHTTP(rw, req)
    return
}
e.next.ServeHTTP(rw, req)
```
-/
def Branching.ServeHTTP {RW Req W : Type} (e : Branching RW Req W) (rw : RW) (req : Req) :
    List (Call RW Req) :=
  let result := e.matcher.Evaluate req
  let matched := result.1
  let err := result.2
  let logged : List (Call RW Req) :=
    match err with
    | some err => [Call.logPrintf ("ignoring branch, unable to match request: " ++ err.Error)]
    | none => []
  if matched then
    logged ++ [Call.branchServeHTTP rw req]
  else
    logged ++ [Call.nextServeHTTP rw req]

/-- The effect of one call of `ServeHTTP` on the world; `logger` is the effect
of `Logger.Printf` with the formatted message. -/
def Branching.perform {RW Req W : Type} (logger : String → W → W) (e : Branching RW Req W) :
    Call RW Req → W → W
  | .logPrintf msg, w => logger msg w
  | .branchServeHTTP rw req, w => e.branch rw req w
  | .nextServeHTTP rw req, w => e.next rw req w

/-- The effect of `ServeHTTP` on the world: its calls performed in order. -/
def Branching.run {RW Req W : Type} (logger : String → W → W) (e : Branching RW Req W)
    (rw : RW) (req : Req) (w : W) : W :=
  (e.ServeHTTP rw req).foldl (fun w c => e.perform logger c w) w

/-! ## Go maps -/

/-- A Go `map[string]V`: finitely many entries with pairwise distinct keys.
The `nil` map is the map without entries. -/
structure GoMap (V : Type) where
  entries : List (String × V)
  nodupKeys : (entries.map Prod.fst).Nodup

/-- The keys of a map. -/
def GoMap.keys {V : Type} (m : GoMap V) : List String :=
  m.entries.map Prod.fst

/-- The builtin `len` on a map. -/
def GoMap.len {V : Type} (m : GoMap V) : Nat :=
  m.entries.length

/-- Lookup in a list of entries: the value of the first entry with that key. -/
def lookupEntry {V : Type} (name : String) : List (String × V) → Option V
  | [] => none
  | (k, v) :: rest => if k = name then some v else lookupEntry name rest

/-- The index expression `v, ok := m[name]`: `none` when `ok` is false. -/
def GoMap.get? {V : Type} (m : GoMap V) (name : String) : Option V :=
  lookupEntry name m.entries

/-- The entries of a map in the order a `for ... range` loop visits them.  Go
leaves the order unspecified and lets it change from one loop to the next:
the runtime's choice is the seed `iter`, which selects one of the orderings
of the entries. -/
def GoMap.range {V : Type} (m : GoMap V) (iter : Nat) : List (String × V) :=
  let orders := m.entries.permutations'
  orders.getD (iter % orders.length) m.entries

/-- The map with the same keys whose values are the images under `f`. -/
def GoMap.mapValues {V V2 : Type} (f : V → V2) (m : GoMap V) : GoMap V2 where
  entries := m.entries.map (fun entry => (entry.1, f entry.2))
  nodupKeys := by
    have h : (m.entries.map (fun entry => (entry.1, f entry.2))).map Prod.fst
        = m.entries.map Prod.fst := by
      rw [List.map_map]; rfl
    rw [h]; exact m.nodupKeys

/-- Two maps are equal when their entries are. -/
instance {V : Type} [DecidableEq V] : DecidableEq (GoMap V) := fun a b =>
  if h : a.entries = b.entries then
    isTrue (by cases a; cases b; simp_all)
  else
    isFalse (fun heq => h (by rw [heq]))

/-! ## Configuration -/

/-- The struct `Config`: the plugin configuration.  `D` is the type of a
middleware descriptor (`*dynamic.Middleware`). -/
structure Config (D : Type) where
  Condition : String
  Chain : GoMap D

/-- The function `CreateConfig`: the default plugin configuration, with the
empty condition and the `nil` chain. -/
def CreateConfig (D : Type) : Config D where
  Condition := ""
  Chain := ⟨[], List.nodup_nil⟩

/-! ## Collaborators of `New` -/

/-- The collaborators `New` calls that live outside the package. -/
structure Externals (Ctx RW Req W D : Type) where
  /-- The function `bexpr.CreateEvaluator`: the compiled predicate or the compile error. -/
  CreateEvaluator : String → Except GoError (Evaluator Req)
  /-- The verb `%q` of `fmt` on a string: the Go-quoted text. -/
  Quote : String → String
  /-- The middleware factory: the middleware of that name built from its
  descriptor around the given continuation, or an error. -/
  construct : Ctx → String → D → Handler RW Req W → Except GoError (Handler RW Req W)

/-- The struct `runtime.MiddlewareInfo`: a descriptor held by the runtime
configuration. -/
structure MiddlewareInfo (D : Type) where
  Middleware : D

/-- The struct `runtime.Configuration`, restricted to its middlewares. -/
structure RuntimeConfiguration (D : Type) where
  Middlewares : GoMap (MiddlewareInfo D)

/-- Modelled from the spec: `runtime.NewConfig` is vendored code that is not
among the sources.  The spec hands the chain builder the mapping from
middleware name to descriptor of the configuration itself, so the runtime
configuration holds one entry per entry of `Chain`, under the same name. -/
def NewConfig {D : Type} (middlewares : GoMap D) : RuntimeConfiguration D where
  Middlewares := middlewares.mapValues MiddlewareInfo.mk

/-- A middleware constructor of a chain: from the continuation to the
middleware handler, or an error. -/
abbrev Constructor (RW Req W : Type) := Handler RW Req W → Except GoError (Handler RW Req W)

/-- A chain of middleware constructors, outermost first. -/
structure Chain (RW Req W : Type) where
  constructors : List (Constructor RW Req W)

/-- The struct `middleware.Builder`: the descriptors by name and the factory. -/
structure Builder (Ctx RW Req W D : Type) where
  configs : GoMap (MiddlewareInfo D)
  construct : Ctx → String → D → Handler RW Req W → Except GoError (Handler RW Req W)

/-- The function `middleware.NewBuilder`. -/
def NewBuilder {Ctx RW Req W D : Type} (x : Externals Ctx RW Req W D)
    (configs : GoMap (MiddlewareInfo D)) : Builder Ctx RW Req W D where
  configs := configs
  construct := x.construct

/-- Modelled from the spec: `middleware.Builder.BuildChain` is vendored code
that is not among the sources.  Spec 4.2: the chain has one middleware per name
of the ordered list, in that order; building a middleware fails when its name
has no entry in the descriptor mapping, or when the middleware fails to
construct from its descriptor.  Spec 7: the error for a missing descriptor
identifies the middleware name. -/
def Builder.BuildChain {Ctx RW Req W D : Type} (b : Builder Ctx RW Req W D) (ctx : Ctx)
    (middlewares : List String) : Chain RW Req W where
  constructors := middlewares.map fun name => fun next =>
    match b.configs.get? name with
    | none => Except.error (GoError.new ("middleware " ++ name ++ " does not exist"))
    | some info => b.construct ctx name info.Middleware next

/-- Linking a list of constructors onto a terminal handler, right to left. -/
def linkConstructors {RW Req W : Type} :
    List (Constructor RW Req W) → Handler RW Req W → Except GoError (Handler RW Req W)
  | [], h => Except.ok h
  | c :: rest, h =>
    match linkConstructors rest h with
    | Except.ok inner => c inner
    | Except.error err => Except.error err

/-- Modelled from the spec: the method `Then` of the chain is vendored code
that is not among the sources.  Spec 4.2 and 9: the name list is folded right
to left, each middleware's continuation bound to the next one, the last
middleware's continuation being the supplied terminal handler; the first
failure is the failure of the whole. -/
def Chain.Then {RW Req W : Type} (c : Chain RW Req W) (h : Handler RW Req W) :
    Except GoError (Handler RW Req W) :=
  linkConstructors c.constructors h

/-! ## Construction -/

/-- The loop of `New` collecting the names of the chain:
`for name := range config.Chain { midChain = append(midChain, name) }`. -/
def midChain {D : Type} (config : Config D) (iter : Nat) : List String :=
  (config.Chain.range iter).foldl (fun midChain entry => midChain ++ [entry.1]) []

/-- The calls `New` makes itself. -/
inductive NewCall where
  | createEvaluator (condition : String)
  | newConfig (names : List String)
  | newBuilder
  | buildChain (midChain : List String)
  | chainThen
  | logPrintf (msg : String)
  deriving DecidableEq, Repr

/-- The two results of `New`, `(http.Handler, error)` with `none` for `nil`,
and the calls it made. -/
structure NewResult (RW Req W : Type) where
  handler : Option (Branching RW Req W)
  err : Option GoError
  calls : List NewCall

/-- The function `New`.  `iter` is the order in which the runtime iterates the
map `config.Chain`. -/
def New {Ctx RW Req W D : Type} (x : Externals Ctx RW Req W D) (iter : Nat)
    (ctx : Ctx) (next : Handler RW Req W) (config : Config D) (name : String) :
    NewResult RW Req W :=
  match x.CreateEvaluator config.Condition with
  | Except.error err =>
    { handler := none
      err := some (GoError.wrap ("failed to create evaluator for expression "
        ++ x.Quote config.Condition ++ ": " ++ err.Error) err)
      calls := [NewCall.createEvaluator config.Condition] }
  | Except.ok eval =>
    let names := midChain config iter
    let rtConf := NewConfig config.Chain
    let builder := NewBuilder x rtConf.Middlewares
    let chain := builder.BuildChain ctx names
    let calls := [NewCall.createEvaluator config.Condition, NewCall.newConfig config.Chain.keys,
      NewCall.newBuilder, NewCall.buildChain names, NewCall.chainThen]
    match chain.Then next with
    | Except.error err =>
      { handler := none
        err := some (GoError.wrap ("failed to create middleware chain " ++ err.Error) err)
        calls := calls }
    | Except.ok branchHandler =>
      { handler := some { name := name, next := next, matcher := eval, branch := branchHandler }
        err := none
        calls := calls ++ [NewCall.logPrintf (name ++ " created, matching "
          ++ x.Quote config.Condition)] }

/-! ## The predicate language -/

/-- The view of the inbound request a predicate reads: the method, the path
and the headers, each header name with the list of its values. -/
structure Request where
  Method : String
  Path : String
  Header : GoMap (List String)
  deriving DecidableEq

/-- Modelled from the spec: the expression compiler and evaluator are vendored
code that is not among the sources.  Spec 4.1: an accessor path into the fixed
view of the request: the method, the path, or the value at an index of a
multi-valued header. -/
inductive Accessor where
  | method
  | path
  | header (name : String) (index : Nat)
  deriving DecidableEq, Repr

/-- Modelled from the spec: the evaluator is not among the sources.  Spec 4.1:
the literals of the grammar are strings, numbers and booleans. -/
inductive Literal where
  | str (s : String)
  | num (n : Int)
  | bool (b : Bool)
  deriving DecidableEq, Repr

/-- Modelled from the spec: the evaluator is not among the sources.  Spec 4.1:
the comparison operators `==`, `!=`, `<`, `>`, `<=`, `>=`. -/
inductive Comparison where
  | eq
  | ne
  | lt
  | gt
  | le
  | ge
  deriving DecidableEq, Repr

/-- Modelled from the spec: the evaluator is not among the sources.  Spec 3
and 4.1: the compiled form of a boolean expression: comparisons of an accessor
with a literal, combined by `not`, `and` and `or`. -/
inductive Predicate where
  | compare (field : Accessor) (op : Comparison) (value : Literal)
  | not (p : Predicate)
  | and (p q : Predicate)
  | or (p q : Predicate)
  deriving DecidableEq, Repr

/-- Modelled from the spec: the evaluator is not among the sources.  Spec 4.1:
reading an accessor fails with an evaluation error when the referenced field
is absent: the header has no entry, or no value at the index. -/
def Accessor.resolve (r : Request) : Accessor → Except GoError String
  | .method => Except.ok r.Method
  | .path => Except.ok r.Path
  | .header name index =>
    match r.Header.get? name with
    | none => Except.error (GoError.new ("header " ++ name ++ " is absent"))
    | some values =>
      match values[index]? with
      | none => Except.error (GoError.new ("header " ++ name ++ " has no such value"))
      | some v => Except.ok v

/-- Modelled from the spec: the evaluator is not among the sources.  Spec 4.1:
a comparison fails with an evaluation error when the field is
type-incompatible with the operator applied to it: the fields of the request
view are strings, so they compare with string literals only. -/
def Comparison.apply (op : Comparison) (field : String) : Literal → Except GoError Bool
  | .str s =>
    Except.ok (match op with
      | .eq => decide (field = s)
      | .ne => decide (field ≠ s)
      | .lt => decide (field < s)
      | .gt => decide (s < field)
      | .le => decide (¬ s < field)
      | .ge => decide (¬ field < s))
  | .num _ => Except.error (GoError.new "cannot compare a string with a number")
  | .bool _ => Except.error (GoError.new "cannot compare a string with a boolean")

/-- Modelled from the spec: the evaluator is not among the sources.  Spec 4.1:
`evaluate(Predicate, request)` gives a boolean, or fails with an evaluation
error when a referenced field is absent or type-incompatible; there are no
side effects and the cost is proportional to the size of the expression.  The
connectives `and/&&` and `or/||` evaluate their right operand only when the
left one has not decided the result. -/
def Predicate.evaluate (r : Request) : Predicate → Except GoError Bool
  | .compare field op value =>
    match field.resolve r with
    | Except.error err => Except.error err
    | Except.ok v => op.apply v value
  | .not p =>
    match p.evaluate r with
    | Except.error err => Except.error err
    | Except.ok b => Except.ok (!b)
  | .and p q =>
    match p.evaluate r with
    | Except.error err => Except.error err
    | Except.ok false => Except.ok false
    | Except.ok true => q.evaluate r
  | .or p q =>
    match p.evaluate r with
    | Except.error err => Except.error err
    | Except.ok true => Except.ok true
    | Except.ok false => q.evaluate r

/-- Modelled from the spec: the evaluator is not among the sources.  The method
`Evaluate` of a compiled predicate as `ServeHTTP` calls it: a boolean and an
error.  When evaluation succeeds they are its result and `nil`; when it fails
the error is the evaluation error, and the spec states no boolean beside it:
`beside` is the boolean the method returns then. -/
def Predicate.toEvaluator (p : Predicate) (beside : Request → Bool) : Evaluator Request where
  Evaluate := fun r =>
    match p.evaluate r with
    | Except.ok b => (b, none)
    | Except.error err => (beside r, some err)

/-- The compiled form of the condition ``Header[`Foo`].0 == `bar` ``: the
first value of the header `Foo` equals the string `bar`. -/
def headerFooIsBar : Predicate :=
  Predicate.compare (Accessor.header "Foo" 0) Comparison.eq (Literal.str "bar")

/-- The receiver and the calls after `ServeHTTP`, in state-passing form: the
body of the method reads the fields `matcher`, `branch` and `next` of its
receiver and assigns to none of its fields. -/
def Branching.ServeHTTPState {RW Req W : Type} (e : Branching RW Req W) (rw : RW) (req : Req) :
    Branching RW Req W × List (Call RW Req) :=
  (e, e.ServeHTTP rw req)

/-- The handler `ServeHTTP` delegates to for a request: `branch` when the
boolean returned by the matcher is true, `next` otherwise. -/
def Branching.delegate {RW Req W : Type} (e : Branching RW Req W) (req : Req) :
    Handler RW Req W :=
  if (e.matcher.Evaluate req).1 then e.branch else e.next

/-! ## Sample values used to exercise the definitions -/

/-- A matcher answering `true` without error exactly on request `1`, `false`
without error on request `0`, `false` with an error on request `2` and `true`
with an error on every other request. -/
def sampleMatcher : Evaluator Nat where
  Evaluate := fun req =>
    if req = 1 then (true, none)
    else if req = 0 then (false, none)
    else if req = 2 then (false, some (GoError.new "no such field"))
    else (true, some (GoError.new "no such field"))

/-- A plugin over a world that lists the handlers reached: `next` records
`default`, `branch` records `foo` and then continues with `default`. -/
def sampleBranching : Branching Nat Nat (List String) where
  name := "test-plugin"
  next := fun _ _ w => w ++ ["default"]
  branch := fun _ _ w => w ++ ["foo", "default"]
  matcher := sampleMatcher

/-- Sample collaborators: the compiler rejects the bare word `HumHum` and
accepts every other condition; a middleware whose descriptor is `bad` fails to
construct, every other one records its descriptor and continues. -/
def sampleExternals : Externals Unit Nat Nat (List String) String where
  CreateEvaluator := fun condition =>
    if condition = "HumHum" then Except.error (GoError.new "invalid expression")
    else Except.ok sampleMatcher
  Quote := fun s => "<" ++ s ++ ">"
  construct := fun _ name d next =>
    if d = "bad" then Except.error (GoError.new ("cannot construct " ++ name))
    else Except.ok (fun rw req w => next rw req (w ++ [d]))

/-- The default handler of the samples: it records `default`. -/
def sampleNext : Handler Nat Nat (List String) := fun _ _ w => w ++ ["default"]

/-- A configuration with a one-entry chain, as in the package's test. -/
def sampleConfig : Config String where
  Condition := "Header.Foo.0 == bar"
  Chain := ⟨[("test-chain", "foo")], by simp⟩

/-- A configuration with a two-entry chain. -/
def sampleConfigTwo : Config String where
  Condition := "Header.Foo.0 == bar"
  Chain := ⟨[("a", "first"), ("b", "second")], by simp⟩

/-- A configuration whose condition the sample compiler rejects. -/
def sampleConfigInvalid : Config String where
  Condition := "HumHum"
  Chain := ⟨[("test-chain", "foo")], by simp⟩

/-- The middleware the sample factory builds from the descriptor `foo`: it
records `foo` and continues. -/
def sampleMiddleware (_ : String) (next : Handler Nat Nat (List String)) :
    Handler Nat Nat (List String) :=
  fun rw req w => next rw req (w ++ ["foo"])

/-- A configuration whose only middleware fails to construct. -/
def sampleConfigBad : Config String where
  Condition := "Header.Foo.0 == bar"
  Chain := ⟨[("test-chain", "bad")], by simp⟩

/-- Sample collaborators over the request view: the compiler accepts the
condition of the package's test and compiles it to `headerFooIsBar`, and
rejects every other text; the middleware records its descriptor and continues. -/
def sampleRequestExternals : Externals Unit Nat Request (List String) String where
  CreateEvaluator := fun condition =>
    if condition = "Header[`Foo`].0 == `bar`" then
      Except.ok (headerFooIsBar.toEvaluator (fun _ => false))
    else Except.error (GoError.new "invalid expression")
  Quote := fun s => "<" ++ s ++ ">"
  construct := fun _ _ d next => Except.ok (fun rw req w => next rw req (w ++ [d]))

/-- The default handler of the samples over the request view. -/
def sampleRequestNext : Handler Nat Request (List String) := fun _ _ w => w ++ ["default"]

/-- The configuration of the package's test. -/
def sampleTestConfig : Config String where
  Condition := "Header[`Foo`].0 == `bar`"
  Chain := ⟨[("test-chain", "foo")], by simp⟩

/-- The plugin of the package's test: the matcher is `headerFooIsBar`, the
branch records `foo` and continues with the default handler. -/
def sampleTestPlugin : Branching Nat Request (List String) where
  name := "test-plugin"
  next := sampleRequestNext
  branch := fun rw req w => sampleRequestNext rw req (w ++ ["foo"])
  matcher := headerFooIsBar.toEvaluator (fun _ => false)

/-- A request with the header `Foo: bar`. -/
def sampleRequestBar : Request where
  Method := "GET"
  Path := "/"
  Header := ⟨[("Foo", ["bar"])], by simp⟩

/-- A request with the header `Foo: notbar`. -/
def sampleRequestNotBar : Request where
  Method := "GET"
  Path := "/"
  Header := ⟨[("Foo", ["notbar"])], by simp⟩

/-- A request without the header `Foo`. -/
def sampleRequestNoFoo : Request where
  Method := "GET"
  Path := "/"
  Header := ⟨[], by simp⟩

/-- The plugin of the package's test with the negated condition
``not Header[`Foo`].0 == `bar` ``, whose matcher returns `true` beside an
evaluation error, as an evaluator does that negates the boolean of the failed
comparison and passes its error on. -/
def sampleNegatedPlugin : Branching Nat Request (List String) where
  name := "test-plugin"
  next := sampleRequestNext
  branch := fun rw req w => sampleRequestNext rw req (w ++ ["foo"])
  matcher := (Predicate.not headerFooIsBar).toEvaluator (fun _ => true)

/-- The middlewares the sample factory builds for the two-entry chain: the one
named `a` records `first`, the other one records `second`, and each
continues. -/
def sampleMiddlewareTwo (n : String) (next : Handler Nat Nat (List String)) :
    Handler Nat Nat (List String) :=
  fun rw req w => next rw req (w ++ [if n = "a" then "first" else "second"])

/-- Sample collaborators over a world that counts the arrivals at the default
handler: the compiler accepts every condition, and every middleware passes the
request through to its continuation. -/
def samplePassExternals : Externals Unit Nat Nat Nat String where
  CreateEvaluator := fun _ => Except.ok sampleMatcher
  Quote := fun s => "<" ++ s ++ ">"
  construct := fun _ _ _ next => Except.ok (fun rw req w => next rw req w)

/-- A default handler that counts its invocations. -/
def sampleCountingNext : Handler Nat Nat Nat := fun _ _ n => n + 1

/-- The sample plugin under another name. -/
def sampleRenamedBranching : Branching Nat Nat (List String) where
  name := "other-plugin"
  next := sampleBranching.next
  branch := sampleBranching.branch
  matcher := sampleBranching.matcher

end branching

/-!
Package `sacloud` (vendored `libsacloud`): the switch, the proxy load balancer
plan and the load balancer constructors.

Conventions of the embedding.

* A Go call ends by returning, by a run-time panic, or not at all; a loop is
  run with fuel and `Outcome.outOfFuel` means that the fuel did not suffice.
* A pointer is an `Option`, `none` for `nil`; a slice whose `nil` state the
  code tests is an `Option` of a list.
* A `byte` is a natural number below `256` and byte arithmetic is taken
  modulo `256`; an `int` is an integer of 64 bits.
* Go strings are sequences of bytes; the functions modelled here look for the
  ASCII characters `/`, `+`, `-` and the digits only, which no byte of a
  multi-byte character equals, so they are modelled on characters.
-/

namespace sacloud

open branching (GoError GoMap)

/-- How a Go call ends. -/
inductive Outcome (α : Type) where
  | returned (value : α)
  | panicked
  | outOfFuel
  deriving DecidableEq, Repr

/-! ## Numbers as text -/

/-- The verb `%d` on an `int`: the decimal digits, after `-` when negative. -/
def formatInt : Int → String
  | Int.ofNat n => Nat.repr n
  | Int.negSucc n => "-" ++ Nat.repr (n + 1)

/-- The value of the decimal digits `cs` appended to the number `acc`; `none`
when a character is not a decimal digit. -/
def parseDigits : List Char → Nat → Option Nat
  | [], acc => some acc
  | c :: cs, acc =>
    if c.isDigit then parseDigits cs (acc * 10 + (c.toNat - 48)) else none

/-- The text without its sign, and whether the sign is `-`. -/
def splitSign : List Char → Bool × List Char
  | '-' :: rest => (true, rest)
  | '+' :: rest => (false, rest)
  | cs => (false, cs)

/-- The function `strconv.Atoi`: an optional sign and one or more decimal
digits, of a value that fits an `int`; an error otherwise. -/
def Atoi (s : String) : Except GoError Int :=
  let signed := splitSign s.data
  if signed.2 = [] then
    Except.error (GoError.new ("strconv.Atoi: parsing " ++ s ++ ": invalid syntax"))
  else
    match parseDigits signed.2 0 with
    | none => Except.error (GoError.new ("strconv.Atoi: parsing " ++ s ++ ": invalid syntax"))
    | some n =>
      if signed.1 then
        if n > 2 ^ 63 then
          Except.error (GoError.new ("strconv.Atoi: parsing " ++ s ++ ": value out of range"))
        else Except.ok (-(n : Int))
      else
        if n ≥ 2 ^ 63 then
          Except.error (GoError.new ("strconv.Atoi: parsing " ++ s ++ ": value out of range"))
        else Except.ok (n : Int)

/-- Whether a text is a decimal integer: an optional sign followed by one or
more decimal digits. -/
def isDecimalInteger (cs : List Char) : Bool :=
  !(splitSign cs).2.isEmpty && (splitSign cs).2.all Char.isDigit

/-- The pieces of a text between the occurrences of the separator `sep`. -/
def splitChars (sep : Char) : List Char → List (List Char)
  | [] => [[]]
  | c :: cs =>
    if c = sep then [] :: splitChars sep cs
    else
      match splitChars sep cs with
      | [] => [[c]]
      | piece :: pieces => (c :: piece) :: pieces

/-- The function `strings.Split` with a separator of one character. -/
def Split (s : String) (sep : Char) : List String :=
  (splitChars sep s.data).map String.mk

/-! ## Addresses -/

/-- The four bytes of an IPv4 address, the result of `To4`. -/
structure IPv4 where
  b0 : Nat
  b1 : Nat
  b2 : Nat
  b3 : Nat
  deriving DecidableEq, Repr

/-- The method `String` of the address `net.IPv4(a, b, c, d)`: dotted decimal. -/
def IPv4String (a b c d : Nat) : String :=
  Nat.repr a ++ "." ++ Nat.repr b ++ "." ++ Nat.repr c ++ "." ++ Nat.repr d

/-! ## Switch -/

/-- The struct `Resource`: a resource with an ID. -/
structure Resource where
  ID : Int
  deriving DecidableEq, Repr

/-- The range of addresses of a subnet of a switch. -/
structure IPAddressRange where
  Min : String
  Max : String
  deriving DecidableEq, Repr

/-- The struct `SwitchSubnet`, restricted to its address range. -/
structure SwitchSubnet where
  IPAddresses : IPAddressRange
  deriving DecidableEq, Repr

/-- The struct `Switch`, restricted to the fields its two address methods
read: the embedded `*Resource` and the slice `Subnets`. -/
structure Switch where
  Resource : Option Resource
  Subnets : Option (List SwitchSubnet)
  deriving DecidableEq, Repr

/-- The condition `s.Subnets == nil || len(s.Subnets) < 1`. -/
def Switch.subnetsMissing (s : Switch) : Bool :=
  match s.Subnets with
  | none => true
  | some subnets => decide (subnets.length < 1)

/-- The error `fmt.Errorf("switch[%d].Subnets is nil", s.ID)`. -/
def subnetsNilError (id : Int) : GoError :=
  GoError.new ("switch[" ++ formatInt id ++ "].Subnets is nil")

/-- The method `Switch.GetDefaultIPAddressesForVPCRouter`.  `parseTo4` is
`net.ParseIP(s).To4()`, `none` for `nil`; indexing the `nil` address panics,
and so does reading `s.ID` through a `nil` embedded `*Resource`. -/
def Switch.GetDefaultIPAddressesForVPCRouter (parseTo4 : String → Option IPv4) (s : Switch) :
    Outcome ((String × String × String) × Option GoError) :=
  if s.subnetsMissing then
    match s.Resource with
    | none => Outcome.panicked
    | some res => Outcome.returned (("", "", ""), some (subnetsNilError res.ID))
  else
    match s.Subnets.bind (fun subnets => subnets[0]?) with
    | none => Outcome.panicked
    | some subnet =>
      match parseTo4 subnet.IPAddresses.Min with
      | none => Outcome.panicked
      | some baseAddress =>
        let address1 := IPv4String baseAddress.b0 baseAddress.b1 baseAddress.b2
          ((baseAddress.b3 + 1) % 256)
        let address2 := IPv4String baseAddress.b0 baseAddress.b1 baseAddress.b2
          ((baseAddress.b3 + 2) % 256)
        Outcome.returned
          ((IPv4String baseAddress.b0 baseAddress.b1 baseAddress.b2 baseAddress.b3,
            address1, address2), none)

/-- The loop of `Switch.GetIPAddressList`, run with fuel:
`for (min + i) <= max { ret = append(ret, ip.String()); i++ }`, where `min`,
`max` and `i` are bytes. -/
def GetIPAddressListLoop (baseIP : IPv4) (min max : Nat) :
    Nat → Nat → List String → Outcome (List String)
  | 0, _, _ => Outcome.outOfFuel
  | fuel + 1, i, ret =>
    if (min + i) % 256 ≤ max then
      GetIPAddressListLoop baseIP min max fuel ((i + 1) % 256)
        (ret ++ [IPv4String baseIP.b0 baseIP.b1 baseIP.b2 ((baseIP.b3 + i) % 256)])
    else
      Outcome.returned ret

/-- The method `Switch.GetIPAddressList`, its loop run with `fuel`.  The list
returned is `none` for the `nil` slice. -/
def Switch.GetIPAddressList (parseTo4 : String → Option IPv4) (fuel : Nat) (s : Switch) :
    Outcome (Option (List String) × Option GoError) :=
  if s.subnetsMissing then
    match s.Resource with
    | none => Outcome.panicked
    | some res => Outcome.returned (none, some (subnetsNilError res.ID))
  else
    match s.Subnets.bind (fun subnets => subnets[0]?) with
    | none => Outcome.panicked
    | some subnet =>
      match parseTo4 subnet.IPAddresses.Min with
      | none => Outcome.panicked
      | some baseIP =>
        let min := baseIP.b3
        match parseTo4 subnet.IPAddresses.Max with
        | none => Outcome.panicked
        | some maxIP =>
          let max := maxIP.b3
          match GetIPAddressListLoop baseIP min max fuel 0 [] with
          | Outcome.returned ret => Outcome.returned (some ret, none)
          | Outcome.panicked => Outcome.panicked
          | Outcome.outOfFuel => Outcome.outOfFuel

/-! ## ProxyLB plan -/

/-- The type `ProxyLBPlan`, an `int`. -/
abbrev ProxyLBPlan := Int

/-- The plan `ProxyLBPlan1000`. -/
def ProxyLBPlan1000 : ProxyLBPlan := 1000

/-- The struct `ProxyLB`, restricted to the field `ServiceClass` of the
embedded `propServiceClass`. -/
structure ProxyLB where
  ServiceClass : String
  deriving DecidableEq, Repr

/-- The method `ProxyLB.GetPlan`: the number after the last `/` of the service
class, the plan `1000` when that text is not a number. -/
def ProxyLB.GetPlan (p : ProxyLB) : Outcome ProxyLBPlan :=
  let classes := Split p.ServiceClass '/'
  match classes[classes.length - 1]? with
  | none => Outcome.panicked
  | some last =>
    match Atoi last with
    | Except.error _ => Outcome.returned ProxyLBPlan1000
    | Except.ok cls => Outcome.returned cls

/-- The method `ProxyLB.SetPlan`. -/
def ProxyLB.SetPlan (p : ProxyLB) (plan : ProxyLBPlan) : ProxyLB :=
  { p with ServiceClass := "cloud/proxylb/plain/" ++ formatInt plan }

/-! ## Load balancer -/

/-- An element of the slice `Servers []interface{}`: a `map[string]string`, or
a value of another dynamic type. -/
inductive ServerEntry where
  | mapStringString (m : GoMap String)
  | other
  deriving DecidableEq

/-- The struct `ApplianceRemarkSwitch`, restricted to its ID. -/
structure ApplianceRemarkSwitch where
  ID : Int
  deriving DecidableEq

/-- The struct `ApplianceRemarkVRRP`. -/
structure ApplianceRemarkVRRP where
  VRID : Int
  deriving DecidableEq

/-- The struct `ApplianceRemarkNetwork`. -/
structure ApplianceRemarkNetwork where
  NetworkMaskLen : Int
  DefaultRoute : String
  deriving DecidableEq

/-- The struct `ApplianceRemarkBase`. -/
structure ApplianceRemarkBase where
  Servers : List ServerEntry
  Switch : Option ApplianceRemarkSwitch
  VRRP : Option ApplianceRemarkVRRP
  Network : Option ApplianceRemarkNetwork
  deriving DecidableEq

/-- The struct `LoadBalancerRemark`: the embedded `*ApplianceRemarkBase`. -/
structure LoadBalancerRemark where
  ApplianceRemarkBase : Option ApplianceRemarkBase
  deriving DecidableEq

/-- The struct `Icon`, restricted to its embedded `*Resource`. -/
structure Icon where
  Resource : Option Resource
  deriving DecidableEq

/-- The struct `Appliance`, restricted to the fields the constructors set. -/
structure Appliance where
  Class : String
  Name : String
  Description : String
  Tags : List String
  Plan : Option Resource
  Icon : Option Icon
  deriving DecidableEq

/-- The struct `LoadBalancerHealthCheck`. -/
structure LoadBalancerHealthCheck where
  Protocol : String
  Path : String
  Status : String
  deriving DecidableEq

/-- The struct `LoadBalancerServer`. -/
structure LoadBalancerServer where
  IPAddress : String
  Port : String
  HealthCheck : Option LoadBalancerHealthCheck
  Enabled : String
  Status : String
  ActiveConn : String
  deriving DecidableEq

/-- The struct `LoadBalancerSetting`. -/
structure LoadBalancerSetting where
  VirtualIPAddress : String
  Port : String
  DelayLoop : String
  SorryServer : String
  Description : String
  Servers : List (Option LoadBalancerServer)
  deriving DecidableEq

/-- The struct `LoadBalancerSettings`. -/
structure LoadBalancerSettings where
  LoadBalancer : Option (List (Option LoadBalancerSetting))
  deriving DecidableEq

/-- The struct `LoadBalancer`. -/
structure LoadBalancer where
  Appliance : Option Appliance
  Remark : Option LoadBalancerRemark
  Settings : Option LoadBalancerSettings
  deriving DecidableEq

/-- The slice `l.Remark.Servers`; `none` when a pointer on the way is `nil`,
where the access panics. -/
def LoadBalancer.remarkServers (l : LoadBalancer) : Option (List ServerEntry) :=
  match l.Remark with
  | none => none
  | some remark =>
    match remark.ApplianceRemarkBase with
    | none => none
    | some base => some base.Servers

/-- The value under the key `IPAddress` of the entry at `index`, as the
methods read it: the type assertion to `map[string]string`, then the lookup. -/
def serverIPAddress (servers : List ServerEntry) (index : Nat) : Option String :=
  match servers[index]? with
  | some (ServerEntry.mapStringString v) => v.get? "IPAddress"
  | _ => none

/-- The method `LoadBalancer.IsHA`. -/
def LoadBalancer.IsHA (l : LoadBalancer) : Outcome Bool :=
  match l.remarkServers with
  | none => Outcome.panicked
  | some servers =>
    if servers.length > 1 then
      match serverIPAddress servers 1 with
      | some _ => Outcome.returned true
      | none => Outcome.returned false
    else
      Outcome.returned false

/-- The method `LoadBalancer.IPAddress1`. -/
def LoadBalancer.IPAddress1 (l : LoadBalancer) : Outcome String :=
  match l.remarkServers with
  | none => Outcome.panicked
  | some servers =>
    if servers.length > 0 then
      match serverIPAddress servers 0 with
      | some v => Outcome.returned v
      | none => Outcome.returned ""
    else
      Outcome.returned ""

/-- The method `LoadBalancer.IPAddress2`. -/
def LoadBalancer.IPAddress2 (l : LoadBalancer) : Outcome String :=
  match l.remarkServers with
  | none => Outcome.panicked
  | some servers =>
    if servers.length > 1 then
      match serverIPAddress servers 1 with
      | some v => Outcome.returned v
      | none => Outcome.returned ""
    else
      Outcome.returned ""

/-- The struct `CreateLoadBalancerValue`. -/
structure CreateLoadBalancerValue where
  SwitchID : Int
  VRID : Int
  Plan : Int
  IPAddress1 : String
  MaskLen : Int
  DefaultRoute : String
  Name : String
  Description : String
  Tags : List String
  Icon : Option Resource
  deriving DecidableEq

/-- The struct `CreateDoubleLoadBalancerValue`: the embedded
`*CreateLoadBalancerValue` and the second address. -/
structure CreateDoubleLoadBalancerValue where
  CreateLoadBalancerValue : Option CreateLoadBalancerValue
  IPAddress2 : String
  deriving DecidableEq

/-- The map literal `map[string]string{"IPAddress": v}`. -/
def ipAddressMap (v : String) : GoMap String :=
  ⟨[("IPAddress", v)], by simp⟩

/-- The method `LoadBalancer.AddLoadBalancerSetting`. -/
def LoadBalancer.AddLoadBalancerSetting (l : LoadBalancer)
    (setting : Option LoadBalancerSetting) : LoadBalancer :=
  let settings : LoadBalancerSettings :=
    match l.Settings with
    | none => { LoadBalancer := none }
    | some settings => settings
  let list : List (Option LoadBalancerSetting) :=
    match settings.LoadBalancer with
    | none => []
    | some list => list
  { l with Settings := some { LoadBalancer := some (list ++ [setting]) } }

/-- The composite literal `&LoadBalancer{...}` of `CreateNewLoadBalancerSingle`. -/
def newLoadBalancer (values : CreateLoadBalancerValue) : LoadBalancer :=
  { Appliance := some
      { Class := "loadbalancer"
        Name := values.Name
        Description := values.Description
        Tags := values.Tags
        Plan := some { ID := values.Plan }
        Icon := some { Resource := values.Icon } }
    Remark := some
      { ApplianceRemarkBase := some
          { Switch := some { ID := values.SwitchID }
            VRRP := some { VRID := values.VRID }
            Network := some
              { NetworkMaskLen := values.MaskLen, DefaultRoute := values.DefaultRoute }
            Servers := [ServerEntry.mapStringString (ipAddressMap values.IPAddress1)] } }
    Settings := none }

/-- The function `CreateNewLoadBalancerSingle`; a `nil` value set panics. -/
def CreateNewLoadBalancerSingle (values : Option CreateLoadBalancerValue)
    (settings : List (Option LoadBalancerSetting)) :
    Outcome (Option LoadBalancer × Option GoError) :=
  match values with
  | none => Outcome.panicked
  | some values =>
    let lb := newLoadBalancer values
    Outcome.returned (some (settings.foldl LoadBalancer.AddLoadBalancerSetting lb), none)

/-- The statement `lb.Remark.Servers = append(lb.Remark.Servers, entry)`;
`none` when a pointer on the way is `nil`, where it panics. -/
def LoadBalancer.appendServer (l : LoadBalancer) (entry : ServerEntry) : Option LoadBalancer :=
  match l.Remark with
  | none => none
  | some remark =>
    match remark.ApplianceRemarkBase with
    | none => none
    | some base =>
      let appended : ApplianceRemarkBase := { base with Servers := base.Servers ++ [entry] }
      some { l with Remark := some { ApplianceRemarkBase := some appended } }

/-- The function `CreateNewLoadBalancerDouble`. -/
def CreateNewLoadBalancerDouble (values : Option CreateDoubleLoadBalancerValue)
    (settings : List (Option LoadBalancerSetting)) :
    Outcome (Option LoadBalancer × Option GoError) :=
  match values with
  | none => Outcome.panicked
  | some values =>
    match CreateNewLoadBalancerSingle values.CreateLoadBalancerValue settings with
    | Outcome.panicked => Outcome.panicked
    | Outcome.outOfFuel => Outcome.outOfFuel
    | Outcome.returned (_, some err) => Outcome.returned (none, some err)
    | Outcome.returned (none, none) => Outcome.panicked
    | Outcome.returned (some lb, none) =>
      match lb.appendServer (ServerEntry.mapStringString (ipAddressMap values.IPAddress2)) with
      | none => Outcome.panicked
      | some lb => Outcome.returned (some lb, none)

/-! ## Sample values used to exercise the definitions -/

/-- The value of a field of a dotted address: decimal digits of a value that
fits a byte. -/
def parseOctet (cs : List Char) : Option Nat :=
  if cs = [] then none
  else
    match parseDigits cs 0 with
    | none => none
    | some n => if n < 256 then some n else none

/-- A sample of `net.ParseIP(s).To4()`: it reads dotted decimal text of four
fields. -/
def sampleParseTo4 (s : String) : Option IPv4 :=
  match (splitChars '.' s.data).map parseOctet with
  | [some a, some b, some c, some d] => some { b0 := a, b1 := b, b2 := c, b3 := d }
  | _ => none

/-- A switch with ID `7` and one subnet with the given address range. -/
def sampleSwitch (min max : String) : Switch where
  Resource := some { ID := 7 }
  Subnets := some [{ IPAddresses := { Min := min, Max := max } }]

/-- The zero value of `Switch`: no resource, no subnets. -/
def sampleSwitchZero : Switch where
  Resource := none
  Subnets := none

/-- A switch with ID `7` and an empty, non-nil slice of subnets. -/
def sampleSwitchEmpty : Switch where
  Resource := some { ID := 7 }
  Subnets := some []

/-- A sample value set of a load balancer. -/
def sampleValues : CreateLoadBalancerValue where
  SwitchID := 1
  VRID := 2
  Plan := 1
  IPAddress1 := "192.168.0.11"
  MaskLen := 24
  DefaultRoute := "192.168.0.1"
  Name := "lb"
  Description := ""
  Tags := []
  Icon := none

/-- A sample value set of a redundant load balancer. -/
def sampleDoubleValues : CreateDoubleLoadBalancerValue where
  CreateLoadBalancerValue := some sampleValues
  IPAddress2 := "192.168.0.12"

/-! ## ProxyLB settings and certificates -/

/-- The entries of a slice, the `nil` slice being `none`. -/
def sliceEntries {α : Type} (s : Option (List α)) : List α :=
  match s with
  | none => []
  | some entries => entries

/-- The builtin `append(s, x)` on a slice that may be `nil`. -/
def appendSlice {α : Type} (s : Option (List α)) (x : α) : Option (List α) :=
  some (sliceEntries s ++ [x])

/-- The struct `ProxyLBResponseHeader`. -/
structure ProxyLBResponseHeader where
  Header : String
  Value : String
  deriving DecidableEq, Repr

/-- The struct `ProxyLBBindPorts`. -/
structure ProxyLBBindPorts where
  ProxyMode : String
  Port : Int
  RedirectToHTTPS : Bool
  SupportHTTP2 : Bool
  AddResponseHeader : Option (List (Option ProxyLBResponseHeader))
  deriving DecidableEq, Repr

/-- The struct `ProxyLBServer`. -/
structure ProxyLBServer where
  IPAddress : String
  Port : Int
  ServerGroup : String
  Enabled : Bool
  deriving DecidableEq, Repr

/-- The struct `ProxyLBRule`. -/
structure ProxyLBRule where
  Host : String
  Path : String
  ServerGroup : String
  deriving DecidableEq, Repr

/-- The struct `ProxyLBACMESetting`. -/
structure ProxyLBACMESetting where
  Enabled : Bool
  CommonName : String
  deriving DecidableEq, Repr

/-- The struct `ProxyLBSessionSetting`. -/
structure ProxyLBSessionSetting where
  Enabled : Bool
  Method : String
  deriving DecidableEq, Repr

/-- The struct `ProxyLBTimeout`. -/
structure ProxyLBTimeout where
  InactiveSec : Int
  deriving DecidableEq, Repr

/-- The struct `ProxyLBHealthCheck`. -/
structure ProxyLBHealthCheck where
  Protocol : String
  Host : String
  Path : String
  DelayLoop : Int
  deriving DecidableEq, Repr

/-- The struct `ProxyLBSorryServer`. -/
structure ProxyLBSorryServer where
  IPAddress : String
  Port : Option Int
  deriving DecidableEq, Repr

/-- The struct `ProxyLBSetting`. -/
structure ProxyLBSetting where
  HealthCheck : ProxyLBHealthCheck
  SorryServer : ProxyLBSorryServer
  BindPorts : Option (List (Option ProxyLBBindPorts))
  Servers : Option (List ProxyLBServer)
  Rules : Option (List ProxyLBRule)
  LetsEncrypt : Option ProxyLBACMESetting
  StickySession : ProxyLBSessionSetting
  Timeout : Option ProxyLBTimeout
  deriving DecidableEq, Repr

/-- The loop of `ProxyLBSetting.DeleteBindPort` over the remaining elements:
an element is kept when `ProxyMode != mode || Port != port`; reading the
fields of a `nil` element panics. -/
def DeleteBindPortLoop (mode : String) (port : Int) :
    List (Option ProxyLBBindPorts) → Option (List (Option ProxyLBBindPorts)) →
      Outcome (Option (List (Option ProxyLBBindPorts)))
  | [], res => Outcome.returned res
  | none :: _, _ => Outcome.panicked
  | some bindPort :: rest, res =>
    if bindPort.ProxyMode ≠ mode ∨ bindPort.Port ≠ port then
      DeleteBindPortLoop mode port rest (appendSlice res (some bindPort))
    else
      DeleteBindPortLoop mode port rest res

/-- The method `ProxyLBSetting.DeleteBindPort`. -/
def ProxyLBSetting.DeleteBindPort (s : ProxyLBSetting) (mode : String) (port : Int) :
    Outcome ProxyLBSetting :=
  match DeleteBindPortLoop mode port (sliceEntries s.BindPorts) none with
  | Outcome.returned res => Outcome.returned { s with BindPorts := res }
  | Outcome.panicked => Outcome.panicked
  | Outcome.outOfFuel => Outcome.outOfFuel

/-- The loop of `ProxyLBSetting.DeleteServer` over the remaining elements: an
element is kept when `IPAddress != ip || Port != port`. -/
def DeleteServerLoop (ip : String) (port : Int) :
    List ProxyLBServer → Option (List ProxyLBServer) → Option (List ProxyLBServer)
  | [], res => res
  | server :: rest, res =>
    if server.IPAddress ≠ ip ∨ server.Port ≠ port then
      DeleteServerLoop ip port rest (appendSlice res server)
    else
      DeleteServerLoop ip port rest res

/-- The method `ProxyLBSetting.DeleteServer`. -/
def ProxyLBSetting.DeleteServer (s : ProxyLBSetting) (ip : String) (port : Int) :
    ProxyLBSetting :=
  { s with Servers := DeleteServerLoop ip port (sliceEntries s.Servers) none }

/-- An instant of `time.Time`, not looked into. -/
abbrev Time := Int

/-- The struct `ProxyLBCertificate`. -/
structure ProxyLBCertificate where
  ServerCertificate : String
  IntermediateCertificate : String
  PrivateKey : String
  CertificateEndDate : Time
  CertificateCommonName : String
  deriving DecidableEq, Repr

/-- The struct `ProxyLBCertificates`. -/
structure ProxyLBCertificates where
  PrimaryCert : Option ProxyLBCertificate
  AdditionalCerts : Option (List (Option ProxyLBCertificate))
  deriving DecidableEq, Repr

/-- The loop of `ProxyLBCertificates.RemoveAdditionalCertAt` over the
remaining elements, `i` being the index of the first of them: an element is
kept when `i != index`. -/
def RemoveAdditionalCertAtLoop (index : Int) :
    List (Option ProxyLBCertificate) → Nat → Option (List (Option ProxyLBCertificate)) →
      Option (List (Option ProxyLBCertificate))
  | [], _, certs => certs
  | cert :: rest, i, certs =>
    if (i : Int) ≠ index then
      RemoveAdditionalCertAtLoop index rest (i + 1) (appendSlice certs cert)
    else
      RemoveAdditionalCertAtLoop index rest (i + 1) certs

/-- The method `ProxyLBCertificates.RemoveAdditionalCertAt`. -/
def ProxyLBCertificates.RemoveAdditionalCertAt (p : ProxyLBCertificates) (index : Int) :
    ProxyLBCertificates :=
  { p with
    AdditionalCerts := RemoveAdditionalCertAtLoop index (sliceEntries p.AdditionalCerts) 0 none }

/-! ## Server-group tags -/

/-- The variable `TagGroupA`. -/
def TagGroupA : String := "@group=a"

/-- The variable `TagGroupB`. -/
def TagGroupB : String := "@group=b"

/-- The variable `TagGroupC`. -/
def TagGroupC : String := "@group=b"

/-- The variable `TagGroupD`. -/
def TagGroupD : String := "@group=b"

/-! ## Further sample values -/

/-- A sample bind port. -/
def sampleBindPort (mode : String) (port : Int) : ProxyLBBindPorts where
  ProxyMode := mode
  Port := port
  RedirectToHTTPS := false
  SupportHTTP2 := false
  AddResponseHeader := none

/-- A sample server. -/
def sampleServer (ip : String) (port : Int) : ProxyLBServer where
  IPAddress := ip
  Port := port
  ServerGroup := ""
  Enabled := true

/-- A sample setting with three bind ports and three servers. -/
def sampleSetting : ProxyLBSetting where
  HealthCheck := { Protocol := "http", Host := "", Path := "/", DelayLoop := 10 }
  SorryServer := { IPAddress := "", Port := none }
  BindPorts := some [some (sampleBindPort "http" 80), some (sampleBindPort "https" 443),
    some (sampleBindPort "http" 8080)]
  Servers := some [sampleServer "192.168.0.1" 80, sampleServer "192.168.0.2" 80,
    sampleServer "192.168.0.1" 8080]
  Rules := none
  LetsEncrypt := none
  StickySession := { Enabled := false, Method := "" }
  Timeout := none

/-- A sample certificate with the given common name. -/
def sampleCert (name : String) : ProxyLBCertificate where
  ServerCertificate := "server " ++ name
  IntermediateCertificate := "intermediate " ++ name
  PrivateKey := "key " ++ name
  CertificateEndDate := 0
  CertificateCommonName := name

/-- Sample certificates: three additional certificates. -/
def sampleCertificates : ProxyLBCertificates where
  PrimaryCert := none
  AdditionalCerts := some [some (sampleCert "a"), some (sampleCert "b"), some (sampleCert "c")]

end sacloud

namespace branching

/-! ## Routing: `ServeHTTP` -/

/-- The calls of `ServeHTTP` when evaluation succeeds. -/
theorem ServeHTTP_of_success {RW Req W : Type} (e : Branching RW Req W) (rw : RW) (req : Req)
    (matched : Bool) (h : e.matcher.Evaluate req = (matched, none)) :
    e.ServeHTTP rw req
      = if matched then [Call.branchServeHTTP rw req] else [Call.nextServeHTTP rw req] := by
  simp [Branching.ServeHTTP, h]

/-- The calls of `ServeHTTP` when evaluation returns an error: the diagnostic,
then the handler selected by the boolean returned alongside. -/
theorem ServeHTTP_of_failure {RW Req W : Type} (e : Branching RW Req W) (rw : RW) (req : Req)
    (matched : Bool) (err : GoError) (h : e.matcher.Evaluate req = (matched, some err)) :
    e.ServeHTTP rw req
      = Call.logPrintf ("ignoring branch, unable to match request: " ++ err.Error) ::
          (if matched then [Call.branchServeHTTP rw req] else [Call.nextServeHTTP rw req]) := by
  cases matched <;> simp [Branching.ServeHTTP, h]

/-- C1: when the matcher evaluates the request to `true` without error,
`ServeHTTP` makes exactly one call, the invocation of the `branch` handler with
the response writer and the request it received; it makes no call of `next`,
and its effect on the world is that of this one invocation. -/
theorem ServeHTTP_match_invokes_branch {RW Req W : Type} (e : Branching RW Req W)
    (rw : RW) (req : Req) (h : e.matcher.Evaluate req = (true, none)) :
    e.ServeHTTP rw req = [Call.branchServeHTTP rw req] ∧
    (e.ServeHTTP rw req).countP Call.isBranchCall = 1 ∧
    (e.ServeHTTP rw req).countP Call.isNextCall = 0 ∧
    ∀ (logger : String → W → W) (w : W), e.run logger rw req w = e.branch rw req w := by
  have hs := ServeHTTP_of_success e rw req true h
  simp only [if_true] at hs
  refine ⟨hs, ?_, ?_, ?_⟩
  · rw [hs]; rfl
  · rw [hs]; rfl
  · intro logger w
    simp [Branching.run, hs, Branching.perform]

/-- Witness of C1 on the sample plugin, request `1`. -/
theorem ServeHTTP_match_invokes_branch_witness :
    sampleBranching.matcher.Evaluate 1 = (true, none) ∧
    (sampleBranching.ServeHTTP 7 1 = [Call.branchServeHTTP 7 1] ∧
    (sampleBranching.ServeHTTP 7 1).countP Call.isBranchCall = 1 ∧
    (sampleBranching.ServeHTTP 7 1).countP Call.isNextCall = 0 ∧
    ∀ (logger : String → List String → List String) (w : List String),
      sampleBranching.run logger 7 1 w = sampleBranching.branch 7 1 w) :=
  ⟨by decide, ServeHTTP_match_invokes_branch sampleBranching 7 1 (by decide)⟩

/-- C2: when the matcher evaluates the request to `false` without error,
`ServeHTTP` makes exactly one call, the invocation of the `next` handler with
the response writer and the request it received; it makes no call of `branch`,
and its effect on the world is that of this one invocation. -/
theorem ServeHTTP_no_match_invokes_next {RW Req W : Type} (e : Branching RW Req W)
    (rw : RW) (req : Req) (h : e.matcher.Evaluate req = (false, none)) :
    e.ServeHTTP rw req = [Call.nextServeHTTP rw req] ∧
    (e.ServeHTTP rw req).countP Call.isNextCall = 1 ∧
    (e.ServeHTTP rw req).countP Call.isBranchCall = 0 ∧
    ∀ (logger : String → W → W) (w : W), e.run logger rw req w = e.next rw req w := by
  have hs := ServeHTTP_of_success e rw req false h
  simp only [Bool.false_eq_true, if_false] at hs
  refine ⟨hs, ?_, ?_, ?_⟩
  · rw [hs]; rfl
  · rw [hs]; rfl
  · intro logger w
    simp [Branching.run, hs, Branching.perform]

/-- Witness of C2 on the sample plugin, request `0`. -/
theorem ServeHTTP_no_match_invokes_next_witness :
    sampleBranching.matcher.Evaluate 0 = (false, none) ∧
    (sampleBranching.ServeHTTP 7 0 = [Call.nextServeHTTP 7 0] ∧
    (sampleBranching.ServeHTTP 7 0).countP Call.isNextCall = 1 ∧
    (sampleBranching.ServeHTTP 7 0).countP Call.isBranchCall = 0 ∧
    ∀ (logger : String → List String → List String) (w : List String),
      sampleBranching.run logger 7 0 w = sampleBranching.next 7 0 w) :=
  ⟨by decide, ServeHTTP_no_match_invokes_next sampleBranching 7 0 (by decide)⟩

/-- C3: the code at the failing input.  On request `3` the sample matcher
returns `true` together with an error; `ServeHTTP` writes the diagnostic that
it is ignoring the branch and then invokes the `branch` handler, not `next`,
so the outcome differs from that of request `0`, which evaluates to `false`. -/
theorem ServeHTTP_error_with_true_invokes_branch :
    sampleBranching.matcher.Evaluate 3 = (true, some (GoError.new "no such field")) ∧
    sampleBranching.matcher.Evaluate 0 = (false, none) ∧
    sampleBranching.ServeHTTP 7 3
      = [Call.logPrintf "ignoring branch, unable to match request: no such field",
         Call.branchServeHTTP 7 3] ∧
    (sampleBranching.ServeHTTP 7 3).countP Call.isNextCall = 0 ∧
    sampleBranching.run (fun _ w => w) 7 3 [] = ["foo", "default"] ∧
    sampleBranching.run (fun _ w => w) 7 0 [] = ["default"] := by
  refine ⟨by decide, by decide, by decide, by decide, by decide, by decide⟩

/-- C4: in every evaluation outcome the handler invocations among the calls of
`ServeHTTP` are exactly one: either the single call of `branch` or the single
call of `next`, with the response writer and request received. -/
theorem ServeHTTP_invokes_exactly_one_handler {RW Req W : Type} (e : Branching RW Req W)
    (rw : RW) (req : Req) :
    ((e.ServeHTTP rw req).filter Call.isHandlerCall = [Call.branchServeHTTP rw req] ∨
      (e.ServeHTTP rw req).filter Call.isHandlerCall = [Call.nextServeHTTP rw req]) ∧
    (e.ServeHTTP rw req).countP Call.isBranchCall
      + (e.ServeHTTP rw req).countP Call.isNextCall = 1 := by
  rcases hres : e.matcher.Evaluate req with ⟨matched, err⟩
  cases err with
  | none =>
    rw [ServeHTTP_of_success e rw req matched hres]
    cases matched <;> simp [Call.isHandlerCall, Call.isBranchCall, Call.isNextCall]
  | some err =>
    rw [ServeHTTP_of_failure e rw req matched err hres]
    cases matched <;> simp [Call.isHandlerCall, Call.isBranchCall, Call.isNextCall]

/-! ## Go maps: iteration and lookup -/

/-- Whatever order the runtime chooses, a `range` loop visits the entries of
the map, each once. -/
theorem GoMap.range_perm {V : Type} (m : GoMap V) (iter : Nat) :
    (m.range iter).Perm m.entries := by
  unfold GoMap.range
  simp only [List.getD_eq_getElem?_getD]
  cases h : (m.entries.permutations')[iter % (m.entries.permutations').length]? with
  | none => simp
  | some p =>
    have hmem : p ∈ m.entries.permutations' := List.getElem?_mem h
    simpa using List.mem_permutations'.1 hmem

/-- Every ordering of the entries is the order of some `range` loop. -/
theorem GoMap.range_complete {V : Type} (m : GoMap V) (p : List (String × V))
    (hp : p.Perm m.entries) : ∃ iter, m.range iter = p := by
  have hmem : p ∈ m.entries.permutations' := List.mem_permutations'.2 hp
  obtain ⟨i, hi, hget⟩ := List.getElem_of_mem hmem
  refine ⟨i, ?_⟩
  unfold GoMap.range
  simp only [List.getD_eq_getElem?_getD, Nat.mod_eq_of_lt hi]
  rw [List.getElem?_eq_getElem hi, hget]
  rfl

/-- Appending the key of each entry in turn collects the keys in order. -/
theorem foldl_append_keys {V : Type} (l : List (String × V)) (init : List String) :
    l.foldl (fun acc entry => acc ++ [entry.1]) init = init ++ l.map Prod.fst := by
  induction l generalizing init with
  | nil => simp
  | cons a l ih => simp [ih]

/-- The name list of `New` is the keys of the chain in iteration order. -/
theorem midChain_eq {D : Type} (config : Config D) (iter : Nat) :
    midChain config iter = (config.Chain.range iter).map Prod.fst := by
  simp [midChain, foldl_append_keys]

/-- The name list of `New` is a rearrangement of the keys of the chain. -/
theorem midChain_perm {D : Type} (config : Config D) (iter : Nat) :
    (midChain config iter).Perm config.Chain.keys := by
  rw [midChain_eq]
  exact (GoMap.range_perm config.Chain iter).map Prod.fst

/-- A key of a list of entries has a value. -/
theorem lookupEntry_of_mem_keys {V : Type} (name : String) (l : List (String × V))
    (h : name ∈ l.map Prod.fst) : ∃ v, lookupEntry name l = some v := by
  induction l with
  | nil => simp at h
  | cons a l ih =>
    obtain ⟨k, v⟩ := a
    by_cases hk : k = name
    · exact ⟨v, by simp [lookupEntry, hk]⟩
    · have h2 : name ∈ l.map Prod.fst := by
        simp only [List.map_cons, List.mem_cons] at h
        rcases h with h | h
        · exact absurd h.symm hk
        · exact h
      obtain ⟨v2, hv2⟩ := ih h2
      exact ⟨v2, by simp [lookupEntry, hk, hv2]⟩

/-- Lookup commutes with mapping the values. -/
theorem lookupEntry_map {V V2 : Type} (f : V → V2) (name : String) (l : List (String × V)) :
    lookupEntry name (l.map (fun entry => (entry.1, f entry.2)))
      = (lookupEntry name l).map f := by
  induction l with
  | nil => rfl
  | cons a l ih =>
    obtain ⟨k, v⟩ := a
    by_cases hk : k = name
    · simp [lookupEntry, hk]
    · simp [lookupEntry, hk, ih]

/-- The runtime configuration holds, under each name, the descriptor the
chain of the configuration holds under it. -/
theorem NewConfig_get? {D : Type} (m : GoMap D) (name : String) :
    (NewConfig m).Middlewares.get? name = (m.get? name).map MiddlewareInfo.mk := by
  simp [NewConfig, GoMap.get?, GoMap.mapValues, lookupEntry_map]

/-- The calls of `New` contain one `buildChain` at most, with the name list of
the loop. -/
theorem New_buildChain_names {Ctx RW Req W D : Type} (x : Externals Ctx RW Req W D)
    (iter : Nat) (ctx : Ctx) (next : Handler RW Req W) (config : Config D) (name : String)
    (names : List String)
    (h : NewCall.buildChain names ∈ (New x iter ctx next config name).calls) :
    names = midChain config iter := by
  unfold New at h
  split at h
  · simp at h
  · simp only at h
    split at h <;> simpa using h

/-- Linking the chain built from a name list whose middlewares all construct:
the result is the right fold of the middlewares over the terminal handler. -/
theorem linkConstructors_BuildChain {Ctx RW Req W D : Type} (x : Externals Ctx RW Req W D)
    (ctx : Ctx) (config : Config D) (mw : String → Handler RW Req W → Handler RW Req W)
    (hm : ∀ n d h, config.Chain.get? n = some d → x.construct ctx n d h = Except.ok (mw n h))
    (next : Handler RW Req W) (names : List String)
    (hn : ∀ n ∈ names, n ∈ config.Chain.keys) :
    ((NewBuilder x (NewConfig config.Chain).Middlewares).BuildChain ctx names).Then next
      = Except.ok (names.foldr mw next) := by
  induction names with
  | nil => rfl
  | cons n rest ih =>
    have hrest : ∀ m ∈ rest, m ∈ config.Chain.keys :=
      fun m hmem => hn m (List.mem_cons_of_mem _ hmem)
    have ih2 := ih hrest
    obtain ⟨d, hd⟩ := lookupEntry_of_mem_keys n config.Chain.entries (hn n (List.mem_cons_self _ _))
    have hd2 : config.Chain.get? n = some d := hd
    simp only [Chain.Then, Builder.BuildChain, List.map_cons, linkConstructors] at ih2 ⊢
    rw [ih2]
    simp only [NewBuilder, NewConfig_get?, hd2, Option.map_some, List.foldr_cons]
    exact hm n d _ hd2

/-- The result of `New` depends on the iteration order through the name list
only. -/
theorem New_congr_iter {Ctx RW Req W D : Type} (x : Externals Ctx RW Req W D)
    (iter1 iter2 : Nat) (ctx : Ctx) (next : Handler RW Req W) (config : Config D)
    (name : String) (h : midChain config iter1 = midChain config iter2) :
    New x iter1 ctx next config name = New x iter2 ctx next config name := by
  unfold New
  rw [h]

/-- A `buildChain` among the calls of `New` shows that the condition compiled. -/
theorem New_compiled_of_buildChain {Ctx RW Req W D : Type} (x : Externals Ctx RW Req W D)
    (iter : Nat) (ctx : Ctx) (next : Handler RW Req W) (config : Config D) (name : String)
    (names : List String)
    (h : NewCall.buildChain names ∈ (New x iter ctx next config name).calls) :
    ∃ eval, x.CreateEvaluator config.Condition = Except.ok eval := by
  unfold New at h
  split at h
  · simp at h
  · next eval heval => exact ⟨eval, heval⟩

/-- When the condition compiles, `New` hands the name list of its loop to the
chain builder. -/
theorem New_buildChain_mem {Ctx RW Req W D : Type} (x : Externals Ctx RW Req W D)
    (iter : Nat) (ctx : Ctx) (next : Handler RW Req W) (config : Config D) (name : String)
    (eval : Evaluator Req) (hc : x.CreateEvaluator config.Condition = Except.ok eval) :
    NewCall.buildChain (midChain config iter) ∈ (New x iter ctx next config name).calls := by
  unfold New
  rw [hc]
  simp only
  split <;> simp

/-- Two rearrangements of each other with at most one element are equal. -/
theorem perm_eq_of_length_le_one {α : Type} (l1 l2 : List α) (hp : l1.Perm l2)
    (hl : l1.length ≤ 1) : l1 = l2 := by
  match l1, hl with
  | [], _ => exact (List.nil_perm.1 hp).symm
  | [a], _ => exact List.singleton_perm.1 hp
  | _ :: _ :: _, hl => simp at hl

/-- A list of two or more pairwise distinct elements differs from its reverse. -/
theorem reverse_ne_of_nodup {α : Type} (l : List α) (hn : l.Nodup) (hl : 2 ≤ l.length) :
    l.reverse ≠ l := by
  match l, hn, hl with
  | [], _, hl => simp at hl
  | [_], _, hl => simp at hl
  | a :: b :: t, hn, _ =>
    intro heq
    have hhead := congrArg List.head? heq
    rw [List.head?_reverse] at hhead
    have hmem : a ∈ b :: t := by
      apply List.mem_of_mem_getLast?
      simpa using hhead
    exact (List.nodup_cons.1 hn).1 hmem

/-! ## Construction: `New` -/

/-- C5: when the expression compiler rejects the condition, `New` returns the
nil handler and a non-nil error, and the only call it has made is the call of
the compiler: no chain was built and nothing was linked. -/
theorem New_rejected_condition_builds_nothing {Ctx RW Req W D : Type}
    (x : Externals Ctx RW Req W D) (iter : Nat) (ctx : Ctx) (next : Handler RW Req W)
    (config : Config D) (name : String) (cerr : GoError)
    (h : x.CreateEvaluator config.Condition = Except.error cerr) :
    (New x iter ctx next config name).handler = none ∧
    (New x iter ctx next config name).err ≠ none ∧
    (New x iter ctx next config name).calls = [NewCall.createEvaluator config.Condition] ∧
    (∀ names, NewCall.buildChain names ∉ (New x iter ctx next config name).calls) ∧
    NewCall.chainThen ∉ (New x iter ctx next config name).calls := by
  unfold New
  rw [h]
  simp

/-- Witness of C5: the sample compiler rejects the bare word `HumHum`. -/
theorem New_rejected_condition_builds_nothing_witness :
    sampleExternals.CreateEvaluator sampleConfigInvalid.Condition
      = Except.error (GoError.new "invalid expression") ∧
    ((New sampleExternals 0 () sampleNext sampleConfigInvalid "test-plugin").handler = none ∧
    (New sampleExternals 0 () sampleNext sampleConfigInvalid "test-plugin").err ≠ none ∧
    (New sampleExternals 0 () sampleNext sampleConfigInvalid "test-plugin").calls
      = [NewCall.createEvaluator sampleConfigInvalid.Condition] ∧
    (∀ names, NewCall.buildChain names
      ∉ (New sampleExternals 0 () sampleNext sampleConfigInvalid "test-plugin").calls) ∧
    NewCall.chainThen
      ∉ (New sampleExternals 0 () sampleNext sampleConfigInvalid "test-plugin").calls) :=
  ⟨rfl, New_rejected_condition_builds_nothing sampleExternals 0 () sampleNext
    sampleConfigInvalid "test-plugin" (GoError.new "invalid expression") rfl⟩

/-- C6, counterexample: for the configuration whose chain has the two entries
`a` and `b`, one construction hands the chain builder the name list `a, b` and
another the name list `b, a`, and the two composed handlers differ: the first
runs `first` before `second`, the other `second` before `first`. -/
theorem New_chain_order_varies_with_iteration :
    2 ≤ sampleConfigTwo.Chain.len ∧
    NewCall.buildChain ["a", "b"]
      ∈ (New sampleExternals 0 () sampleNext sampleConfigTwo "test-plugin").calls ∧
    NewCall.buildChain ["b", "a"]
      ∈ (New sampleExternals 1 () sampleNext sampleConfigTwo "test-plugin").calls ∧
    (New sampleExternals 0 () sampleNext sampleConfigTwo "test-plugin").handler.map
      (fun e => e.branch 7 1 []) = some ["first", "second", "default"] ∧
    (New sampleExternals 1 () sampleNext sampleConfigTwo "test-plugin").handler.map
      (fun e => e.branch 7 1 []) = some ["second", "first", "default"] := by
  refine ⟨by decide, by decide, by decide, by decide, by decide⟩

/-- C6, amended: the name list `New` hands to the chain builder is the keys of
`config.Chain` in the order the iteration of the map yields them.  Two
constructions from one configuration pass rearrangements of the same names;
they pass the same list, and return the same result, when the chain has at most
one entry; when it has two or more entries some construction passes a
different list. -/
theorem New_chain_order_follows_iteration {Ctx RW Req W D : Type}
    (x : Externals Ctx RW Req W D) (ctx : Ctx) (next : Handler RW Req W)
    (config : Config D) (name : String) (iter1 iter2 : Nat) (names1 names2 : List String)
    (h1 : NewCall.buildChain names1 ∈ (New x iter1 ctx next config name).calls)
    (h2 : NewCall.buildChain names2 ∈ (New x iter2 ctx next config name).calls) :
    names1.Perm names2 ∧
    (config.Chain.len ≤ 1 →
      names1 = names2 ∧
      New x iter1 ctx next config name = New x iter2 ctx next config name) ∧
    (2 ≤ config.Chain.len →
      ∃ iter3 names3, NewCall.buildChain names3 ∈ (New x iter3 ctx next config name).calls ∧
        names3 ≠ names1) := by
  have e1 := New_buildChain_names x iter1 ctx next config name names1 h1
  have e2 := New_buildChain_names x iter2 ctx next config name names2 h2
  have p1 := midChain_perm config iter1
  have p2 := midChain_perm config iter2
  have hlen : (midChain config iter1).length = config.Chain.len := by
    rw [p1.length_eq]; simp [GoMap.keys, GoMap.len]
  subst e1 e2
  refine ⟨p1.trans p2.symm, ?_, ?_⟩
  · intro hle
    have heq : midChain config iter1 = midChain config iter2 :=
      perm_eq_of_length_le_one _ _ (p1.trans p2.symm) (by omega)
    exact ⟨heq, New_congr_iter x iter1 iter2 ctx next config name heq⟩
  · intro hge
    obtain ⟨eval, hc⟩ := New_compiled_of_buildChain x iter1 ctx next config name _ h1
    obtain ⟨iter3, h3⟩ := GoMap.range_complete config.Chain (config.Chain.range iter1).reverse
      ((List.reverse_perm _).trans (GoMap.range_perm config.Chain iter1))
    refine ⟨iter3, midChain config iter3,
      New_buildChain_mem x iter3 ctx next config name eval hc, ?_⟩
    have hrev : midChain config iter3 = (midChain config iter1).reverse := by
      rw [midChain_eq, midChain_eq, h3, List.map_reverse]
    rw [hrev]
    apply reverse_ne_of_nodup
    · exact (p1.nodup_iff).2 config.Chain.nodupKeys
    · omega

/-- Witness of C6, amended: two constructions from the two-entry sample. -/
theorem New_chain_order_follows_iteration_witness :
    NewCall.buildChain ["a", "b"]
      ∈ (New sampleExternals 0 () sampleNext sampleConfigTwo "test-plugin").calls ∧
    NewCall.buildChain ["b", "a"]
      ∈ (New sampleExternals 1 () sampleNext sampleConfigTwo "test-plugin").calls ∧
    (["a", "b"].Perm ["b", "a"] ∧
    (sampleConfigTwo.Chain.len ≤ 1 →
      ["a", "b"] = ["b", "a"] ∧
      New sampleExternals 0 () sampleNext sampleConfigTwo "test-plugin"
        = New sampleExternals 1 () sampleNext sampleConfigTwo "test-plugin") ∧
    (2 ≤ sampleConfigTwo.Chain.len →
      ∃ iter3 names3, NewCall.buildChain names3
          ∈ (New sampleExternals iter3 () sampleNext sampleConfigTwo "test-plugin").calls ∧
        names3 ≠ ["a", "b"])) :=
  ⟨by decide, by decide,
    New_chain_order_follows_iteration sampleExternals () sampleNext sampleConfigTwo
      "test-plugin" 0 1 ["a", "b"] ["b", "a"] (by decide) (by decide)⟩

/-- C7: when the condition compiles and every middleware of the chain
constructs, `New` hands the chain builder a name list `n1, ..., nk` that holds
the keys of `config.Chain`, each once, in the order the iteration of the map
yields them, and stores as `branch` the middlewares of that list folded right
to left over the handler `next` it was given, which it also stores as `next`:
the branch is `m1 (m2 (... (mk next)))`, so the continuation of the last
middleware is `next` itself.  If every middleware passes through to its
continuation, a request that matches is served by one invocation of the
branch, whose effect is that of `next` invoked once. -/
theorem New_branch_folds_chain_onto_next {Ctx RW Req W D : Type}
    (x : Externals Ctx RW Req W D) (iter : Nat) (ctx : Ctx) (next : Handler RW Req W)
    (config : Config D) (name : String) (eval : Evaluator Req)
    (mw : String → Handler RW Req W → Handler RW Req W)
    (hc : x.CreateEvaluator config.Condition = Except.ok eval)
    (hm : ∀ n d h, config.Chain.get? n = some d → x.construct ctx n d h = Except.ok (mw n h)) :
    ∃ e names, (New x iter ctx next config name).handler = some e ∧
      (New x iter ctx next config name).err = none ∧
      NewCall.buildChain names ∈ (New x iter ctx next config name).calls ∧
      names = (config.Chain.range iter).map Prod.fst ∧
      names.Perm config.Chain.keys ∧
      names.length = config.Chain.len ∧
      e.next = next ∧ e.matcher = eval ∧
      e.branch = names.foldr mw next ∧
      (∀ front last, names = front ++ [last] → e.branch = front.foldr mw (mw last e.next)) ∧
      ((∀ n h rw req w, mw n h rw req w = h rw req w) →
        ∀ (logger : String → W → W) (rw : RW) (req : Req) (w : W),
          eval.Evaluate req = (true, none) →
          e.ServeHTTP rw req = [Call.branchServeHTTP rw req] ∧
          e.run logger rw req w = next rw req w) := by
  have hlink := linkConstructors_BuildChain x ctx config mw hm next (midChain config iter)
    (fun n hn => (midChain_perm config iter).mem_iff.1 hn)
  refine ⟨{ name := name, next := next, matcher := eval,
            branch := (midChain config iter).foldr mw next }, midChain config iter,
    ?_, ?_, New_buildChain_mem x iter ctx next config name eval hc, midChain_eq config iter,
    midChain_perm config iter, ?_, rfl, rfl, rfl, ?_, ?_⟩
  · unfold New
    rw [hc]
    simp only
    rw [hlink]
  · unfold New
    rw [hc]
    simp only
    rw [hlink]
  · rw [(midChain_perm config iter).length_eq]
    simp [GoMap.keys, GoMap.len]
  · intro front last hnames
    simp only [hnames, List.foldr_append, List.foldr_cons, List.foldr_nil]
  · intro hpass logger rw req w hmatch
    have hfold : ∀ names : List String, names.foldr mw next = next := by
      intro names
      induction names with
      | nil => rfl
      | cons n rest ih =>
        funext rw2 req2 w2
        simp only [List.foldr_cons, hpass, ih]
    have hs : (Branching.mk name next ((midChain config iter).foldr mw next) eval).ServeHTTP
        rw req = [Call.branchServeHTTP rw req] :=
      by
      simpa using ServeHTTP_of_success _ rw req true hmatch
    refine ⟨hs, ?_⟩
    unfold Branching.run
    rw [hs]
    simp [Branching.perform, hfold]

/-- Witness of C7.  First the two-entry sample chain in the iteration order
`b, a`, whose middlewares record `second` and `first`: the branch runs the
middleware `b`, then the middleware `a`, then the default handler.  Then the
same chain with middlewares that pass through, over a world that counts the
arrivals at the default handler: the matching request `1` arrives there
once. -/
theorem New_branch_folds_chain_onto_next_witness :
    (sampleExternals.CreateEvaluator sampleConfigTwo.Condition = Except.ok sampleMatcher ∧
    (∀ n d h, sampleConfigTwo.Chain.get? n = some d →
      sampleExternals.construct () n d h = Except.ok (sampleMiddlewareTwo n h)) ∧
    ∃ e, (New sampleExternals 1 () sampleNext sampleConfigTwo "test-plugin").handler = some e ∧
      NewCall.buildChain ["b", "a"]
        ∈ (New sampleExternals 1 () sampleNext sampleConfigTwo "test-plugin").calls ∧
      e.next = sampleNext ∧
      e.branch = sampleMiddlewareTwo "b" (sampleMiddlewareTwo "a" sampleNext) ∧
      e.branch 7 1 [] = ["second", "first", "default"] ∧
      e.next 7 1 [] = ["default"]) ∧
    (samplePassExternals.CreateEvaluator sampleConfigTwo.Condition = Except.ok sampleMatcher ∧
    (∀ n d h, sampleConfigTwo.Chain.get? n = some d →
      samplePassExternals.construct () n d h = Except.ok ((fun _ k => k) n h)) ∧
    (∀ (n : String) (h : Handler Nat Nat Nat) rw req w,
      (fun (_ : String) (k : Handler Nat Nat Nat) => k) n h rw req w = h rw req w) ∧
    sampleMatcher.Evaluate 1 = (true, none) ∧
    ∃ e, (New samplePassExternals 0 () sampleCountingNext sampleConfigTwo
        "test-plugin").handler = some e ∧
      e.ServeHTTP 7 1 = [Call.branchServeHTTP 7 1] ∧
      e.run (fun _ w => w) 7 1 0 = 1) :=
  have hm : ∀ n d h, sampleConfigTwo.Chain.get? n = some d →
      sampleExternals.construct () n d h = Except.ok (sampleMiddlewareTwo n h) := by
    intro n d h hget
    simp only [sampleConfigTwo, GoMap.get?, lookupEntry] at hget
    split at hget
    · next hn =>
      cases hget
      have hn2 : n = "a" := by simpa [eq_comm] using hn
      subst hn2
      rfl
    · split at hget
      · next hn =>
        cases hget
        have hn2 : n = "b" := by simpa [eq_comm] using hn
        subst hn2
        rfl
      · cases hget
  have hpass : ∀ n d h, sampleConfigTwo.Chain.get? n = some d →
      samplePassExternals.construct () n d h = Except.ok ((fun _ k => k) n h) :=
    fun _ _ _ _ => rfl
  ⟨match New_branch_folds_chain_onto_next sampleExternals 1 () sampleNext sampleConfigTwo
      "test-plugin" sampleMatcher sampleMiddlewareTwo rfl hm with
    | ⟨e, names, hh, _, hcall, hnames, _, _, hnext, _, hbranch, _, _⟩ =>
      have hba : names = ["b", "a"] := by rw [hnames]; decide
      ⟨rfl, hm, e, hh, by rw [← hba]; exact hcall, hnext,
        by rw [hbranch, hba]; rfl,
        by rw [hbranch, hba]; rfl,
        by rw [hnext]; rfl⟩,
   match New_branch_folds_chain_onto_next samplePassExternals 0 () sampleCountingNext
      sampleConfigTwo "test-plugin" sampleMatcher (fun _ k => k) rfl hpass with
    | ⟨e, _, hh, _, _, _, _, _, _, _, _, _, hrun⟩ =>
      ⟨rfl, hpass, fun _ _ _ _ _ => rfl, rfl, e, hh,
        (hrun (fun _ _ _ _ _ => rfl) (fun _ w => w) 7 1 0 rfl).1,
        (hrun (fun _ _ _ _ _ => rfl) (fun _ w => w) 7 1 0 rfl).2⟩⟩

/-- C8: the name list `New` hands to the chain builder has no repetition and
holds exactly the keys of `config.Chain`, each once; every name of the list
has a descriptor in the chain, and the mapping given to the builder holds that
descriptor under the same name. -/
theorem New_chain_names_are_the_keys {Ctx RW Req W D : Type}
    (x : Externals Ctx RW Req W D) (iter : Nat) (ctx : Ctx) (next : Handler RW Req W)
    (config : Config D) (name : String) (names : List String)
    (h : NewCall.buildChain names ∈ (New x iter ctx next config name).calls) :
    names.Nodup ∧
    (∀ n, n ∈ names ↔ n ∈ config.Chain.keys) ∧
    (∀ n, n ∈ config.Chain.keys → names.count n = 1) ∧
    names.length = config.Chain.len ∧
    (∀ n, n ∈ names → ∃ d, config.Chain.get? n = some d ∧
      (NewBuilder x (NewConfig config.Chain).Middlewares).configs.get? n
        = some (MiddlewareInfo.mk d)) := by
  have e1 := New_buildChain_names x iter ctx next config name names h
  subst e1
  have hp := midChain_perm config iter
  have hnd : (midChain config iter).Nodup := (hp.nodup_iff).2 config.Chain.nodupKeys
  refine ⟨hnd, fun n => hp.mem_iff, ?_, ?_, ?_⟩
  · intro n hn
    exact List.count_eq_one_of_mem hnd (hp.mem_iff.2 hn)
  · rw [hp.length_eq]; simp [GoMap.keys, GoMap.len]
  · intro n hn
    obtain ⟨d, hd⟩ := lookupEntry_of_mem_keys n config.Chain.entries (hp.mem_iff.1 hn)
    have hd2 : config.Chain.get? n = some d := hd
    exact ⟨d, hd2, by simp [NewBuilder, NewConfig_get?, hd2]⟩

/-- Witness of C8: the two-entry sample, iterated in the order `b, a`. -/
theorem New_chain_names_are_the_keys_witness :
    NewCall.buildChain ["b", "a"]
      ∈ (New sampleExternals 1 () sampleNext sampleConfigTwo "test-plugin").calls ∧
    (["b", "a"].Nodup ∧
    (∀ n, n ∈ ["b", "a"] ↔ n ∈ sampleConfigTwo.Chain.keys) ∧
    (∀ n, n ∈ sampleConfigTwo.Chain.keys → ["b", "a"].count n = 1) ∧
    ["b", "a"].length = sampleConfigTwo.Chain.len ∧
    (∀ n, n ∈ ["b", "a"] → ∃ d, sampleConfigTwo.Chain.get? n = some d ∧
      (NewBuilder sampleExternals (NewConfig sampleConfigTwo.Chain).Middlewares).configs.get? n
        = some (MiddlewareInfo.mk d))) :=
  ⟨by decide, New_chain_names_are_the_keys sampleExternals 1 () sampleNext sampleConfigTwo
    "test-plugin" ["b", "a"] (by decide)⟩

/-- C9: when the condition compiles and linking the chain onto `next` fails
with the builder's error, `New` returns the nil handler and the error
`failed to create middleware chain` followed by the builder's message, which
wraps the builder's error.  For every input, the handler `New` returns is
non-nil if and only if the error it returns is nil. -/
theorem New_chain_failure_returns_no_handler {Ctx RW Req W D : Type}
    (x : Externals Ctx RW Req W D) (iter : Nat) (ctx : Ctx) (next : Handler RW Req W)
    (config : Config D) (name : String) (eval : Evaluator Req) (berr : GoError)
    (hc : x.CreateEvaluator config.Condition = Except.ok eval)
    (hb : ((NewBuilder x (NewConfig config.Chain).Middlewares).BuildChain ctx
      (midChain config iter)).Then next = Except.error berr) :
    (New x iter ctx next config name).handler = none ∧
    (New x iter ctx next config name).err
      = some (GoError.wrap ("failed to create middleware chain " ++ berr.Error) berr) ∧
    (∀ e, (New x iter ctx next config name).err = some e → e.Unwrap = some berr) ∧
    (∀ (iter2 : Nat) (ctx2 : Ctx) (next2 : Handler RW Req W) (config2 : Config D)
        (name2 : String),
      ((New x iter2 ctx2 next2 config2 name2).handler ≠ none ↔
        (New x iter2 ctx2 next2 config2 name2).err = none)) := by
  refine ⟨?_, ?_, ?_, ?_⟩
  · unfold New
    rw [hc]
    simp only
    rw [hb]
  · unfold New
    rw [hc]
    simp only
    rw [hb]
  · intro e he
    unfold New at he
    rw [hc] at he
    simp only at he
    rw [hb] at he
    cases he
    rfl
  · intro iter2 ctx2 next2 config2 name2
    unfold New
    split
    · simp
    · simp only
      split <;> simp

/-- Witness of C9: the sample chain whose only middleware fails to construct. -/
theorem New_chain_failure_returns_no_handler_witness :
    sampleExternals.CreateEvaluator sampleConfigBad.Condition = Except.ok sampleMatcher ∧
    ((NewBuilder sampleExternals (NewConfig sampleConfigBad.Chain).Middlewares).BuildChain ()
      (midChain sampleConfigBad 0)).Then sampleNext
      = Except.error (GoError.new "cannot construct test-chain") ∧
    ((New sampleExternals 0 () sampleNext sampleConfigBad "test-plugin").handler = none ∧
    (New sampleExternals 0 () sampleNext sampleConfigBad "test-plugin").err
      = some (GoError.wrap ("failed to create middleware chain "
          ++ (GoError.new "cannot construct test-chain").Error)
          (GoError.new "cannot construct test-chain")) ∧
    (∀ e, (New sampleExternals 0 () sampleNext sampleConfigBad "test-plugin").err = some e →
      e.Unwrap = some (GoError.new "cannot construct test-chain")) ∧
    (∀ (iter2 : Nat) (ctx2 : Unit) (next2 : Handler Nat Nat (List String))
        (config2 : Config String) (name2 : String),
      ((New sampleExternals iter2 ctx2 next2 config2 name2).handler ≠ none ↔
        (New sampleExternals iter2 ctx2 next2 config2 name2).err = none))) :=
  ⟨rfl, rfl, New_chain_failure_returns_no_handler sampleExternals 0 () sampleNext
    sampleConfigBad "test-plugin" sampleMatcher (GoError.new "cannot construct test-chain")
    rfl rfl⟩

/-- C10: when the condition fails to compile, the error `New` returns has the
message `failed to create evaluator for expression`, the quoted condition, a
colon and the compiler's message; the quoted condition is a part of that
message, and the error wraps the compiler's error. -/
theorem New_compile_error_names_condition {Ctx RW Req W D : Type}
    (x : Externals Ctx RW Req W D) (iter : Nat) (ctx : Ctx) (next : Handler RW Req W)
    (config : Config D) (name : String) (cerr : GoError)
    (h : x.CreateEvaluator config.Condition = Except.error cerr) :
    ∃ e, (New x iter ctx next config name).err = some e ∧
      e.Error = "failed to create evaluator for expression " ++ x.Quote config.Condition
        ++ ": " ++ cerr.Error ∧
      (x.Quote config.Condition).data <:+: e.Error.data ∧
      e.Unwrap = some cerr := by
  refine ⟨GoError.wrap ("failed to create evaluator for expression "
    ++ x.Quote config.Condition ++ ": " ++ cerr.Error) cerr, ?_, rfl, ?_, rfl⟩
  · unfold New
    rw [h]
  · refine ⟨"failed to create evaluator for expression ".data,
      (": " ++ cerr.Error).data, ?_⟩
    simp only [GoError.Error, String.data_append, List.append_assoc]

/-- Witness of C10: the sample compiler rejects the bare word `HumHum`. -/
theorem New_compile_error_names_condition_witness :
    sampleExternals.CreateEvaluator sampleConfigInvalid.Condition
      = Except.error (GoError.new "invalid expression") ∧
    ∃ e, (New sampleExternals 0 () sampleNext sampleConfigInvalid "test-plugin").err = some e ∧
      e.Error = "failed to create evaluator for expression "
        ++ sampleExternals.Quote sampleConfigInvalid.Condition
        ++ ": " ++ (GoError.new "invalid expression").Error ∧
      (sampleExternals.Quote sampleConfigInvalid.Condition).data <:+: e.Error.data ∧
      e.Unwrap = some (GoError.new "invalid expression") :=
  ⟨rfl, New_compile_error_names_condition sampleExternals 0 () sampleNext sampleConfigInvalid
    "test-plugin" (GoError.new "invalid expression") rfl⟩

/-! ## Routing on the predicate language -/

/-- The fields of the plugin `New` returns. -/
theorem New_handler_fields {Ctx RW Req W D : Type} (x : Externals Ctx RW Req W D)
    (iter : Nat) (ctx : Ctx) (next : Handler RW Req W) (config : Config D) (name : String)
    (e : Branching RW Req W) (ev : Evaluator Req)
    (hnew : (New x iter ctx next config name).handler = some e)
    (hc : x.CreateEvaluator config.Condition = Except.ok ev) :
    e.matcher = ev ∧ e.next = next ∧ e.name = name := by
  unfold New at hnew
  rw [hc] at hnew
  simp only at hnew
  split at hnew
  · cases hnew
  · injection hnew with h
    subst h
    exact ⟨rfl, rfl, rfl⟩

/-- The Go result of a predicate that evaluates to a boolean. -/
theorem toEvaluator_of_ok (p : Predicate) (beside : Request → Bool) (r : Request) (b : Bool)
    (h : p.evaluate r = Except.ok b) : (p.toEvaluator beside).Evaluate r = (b, none) := by
  simp [Predicate.toEvaluator, h]

/-- The Go result of a predicate whose evaluation fails. -/
theorem toEvaluator_of_error (p : Predicate) (beside : Request → Bool) (r : Request)
    (err : GoError) (h : p.evaluate r = Except.error err) :
    (p.toEvaluator beside).Evaluate r = (beside r, some err) := by
  simp [Predicate.toEvaluator, h]

/-- The effect of `ServeHTTP`: the diagnostic if evaluation returned an error,
then the handler it delegates to. -/
theorem run_eq_delegate {RW Req W : Type} (e : Branching RW Req W) (logger : String → W → W)
    (rw : RW) (req : Req) (w : W) :
    e.run logger rw req w
      = e.delegate req rw req
          (match (e.matcher.Evaluate req).2 with
            | some err => logger ("ignoring branch, unable to match request: " ++ err.Error) w
            | none => w) := by
  rcases hres : e.matcher.Evaluate req with ⟨matched, err⟩
  cases err with
  | none =>
    have hs := ServeHTTP_of_success e rw req matched hres
    cases matched <;> simp [Branching.run, hs, Branching.perform, Branching.delegate, hres]
  | some err =>
    have hs := ServeHTTP_of_failure e rw req matched err hres
    cases matched <;> simp [Branching.run, hs, Branching.perform, Branching.delegate, hres]

/-- C11: a plugin built by `New` from the condition ``Header[`Foo`].0 == `bar` ``
and a request that has the header `Foo` with first value `v`.  If `v` is the
string `bar`, the only call of `ServeHTTP` is the invocation of the alternate
chain; if `v` is any other string, the only call is the invocation of the
default handler, and the alternate chain is not invoked. -/
theorem ServeHTTP_header_foo_routes {Ctx RW W D : Type} (x : Externals Ctx RW Request W D)
    (iter : Nat) (ctx : Ctx) (next : Handler RW Request W) (config : Config D) (name : String)
    (e : Branching RW Request W) (rw : RW) (r : Request) (v : String) (rest : List String)
    (beside : Request → Bool)
    (hcond : config.Condition = "Header[`Foo`].0 == `bar`")
    (hc : x.CreateEvaluator "Header[`Foo`].0 == `bar`"
      = Except.ok (headerFooIsBar.toEvaluator beside))
    (hnew : (New x iter ctx next config name).handler = some e)
    (hfoo : r.Header.get? "Foo" = some (v :: rest)) :
    (v = "bar" → e.ServeHTTP rw r = [Call.branchServeHTTP rw r]) ∧
    (v ≠ "bar" → e.ServeHTTP rw r = [Call.nextServeHTTP rw r] ∧
      (e.ServeHTTP rw r).countP Call.isBranchCall = 0 ∧ e.next = next) := by
  rw [← hcond] at hc
  obtain ⟨hm, hn, _⟩ := New_handler_fields x iter ctx next config name e _ hnew hc
  have hev : headerFooIsBar.evaluate r = Except.ok (decide (v = "bar")) := by
    simp [headerFooIsBar, Predicate.evaluate, Accessor.resolve, hfoo, Comparison.apply]
  have hres : e.matcher.Evaluate r = (decide (v = "bar"), none) := by
    rw [hm]; exact toEvaluator_of_ok _ _ _ _ hev
  have hs := ServeHTTP_of_success e rw r _ hres
  constructor
  · intro hv
    simpa [hv] using hs
  · intro hv
    have hs2 : e.ServeHTTP rw r = [Call.nextServeHTTP rw r] := by simpa [hv] using hs
    refine ⟨hs2, ?_, hn⟩
    rw [hs2]; rfl

/-- Witness of C11: the plugin of the package's test and the request with the
header `Foo: bar`. -/
theorem ServeHTTP_header_foo_routes_witness :
    sampleTestConfig.Condition = "Header[`Foo`].0 == `bar`" ∧
    sampleRequestExternals.CreateEvaluator "Header[`Foo`].0 == `bar`"
      = Except.ok (headerFooIsBar.toEvaluator (fun _ => false)) ∧
    (New sampleRequestExternals 0 () sampleRequestNext sampleTestConfig "test-plugin").handler
      = some sampleTestPlugin ∧
    sampleRequestBar.Header.get? "Foo" = some ("bar" :: []) ∧
    (("bar" = "bar" →
      sampleTestPlugin.ServeHTTP 7 sampleRequestBar = [Call.branchServeHTTP 7 sampleRequestBar]) ∧
    ("bar" ≠ "bar" →
      sampleTestPlugin.ServeHTTP 7 sampleRequestBar = [Call.nextServeHTTP 7 sampleRequestBar] ∧
      (sampleTestPlugin.ServeHTTP 7 sampleRequestBar).countP Call.isBranchCall = 0 ∧
      sampleTestPlugin.next = sampleRequestNext)) :=
  ⟨rfl, rfl, rfl, rfl,
    ServeHTTP_header_foo_routes sampleRequestExternals 0 () sampleRequestNext sampleTestConfig
      "test-plugin" sampleTestPlugin 7 sampleRequestBar "bar" [] (fun _ => false)
      rfl rfl rfl rfl⟩

/-- C12, failing input: the plugin of the package's test with the condition
``not Header[`Foo`].0 == `bar` `` and a request without the header `Foo`.
Reading the field fails, so evaluation yields an error, and the matcher returns
`true` beside it.  `ServeHTTP` writes the diagnostic and then invokes the
alternate chain, not the default handler: the world records `foo` before
`default`, where the default handler alone records `default`. -/
theorem ServeHTTP_absent_field_invokes_branch :
    (Accessor.header "Foo" 0).resolve sampleRequestNoFoo
      = Except.error (GoError.new "header Foo is absent") ∧
    (Predicate.not headerFooIsBar).evaluate sampleRequestNoFoo
      = Except.error (GoError.new "header Foo is absent") ∧
    sampleNegatedPlugin.matcher.Evaluate sampleRequestNoFoo
      = (true, some (GoError.new "header Foo is absent")) ∧
    sampleNegatedPlugin.ServeHTTP 7 sampleRequestNoFoo
      = [Call.logPrintf "ignoring branch, unable to match request: header Foo is absent",
         Call.branchServeHTTP 7 sampleRequestNoFoo] ∧
    Call.nextServeHTTP 7 sampleRequestNoFoo ∉ sampleNegatedPlugin.ServeHTTP 7 sampleRequestNoFoo ∧
    sampleNegatedPlugin.run (fun _ w => w) 7 sampleRequestNoFoo [] = ["foo", "default"] ∧
    sampleNegatedPlugin.next 7 sampleRequestNoFoo [] = ["default"] := by
  refine ⟨rfl, rfl, rfl, rfl, ?_, rfl, rfl⟩
  have hs : sampleNegatedPlugin.ServeHTTP 7 sampleRequestNoFoo
      = [Call.logPrintf "ignoring branch, unable to match request: header Foo is absent",
         Call.branchServeHTTP 7 sampleRequestNoFoo] := rfl
  rw [hs]
  simp

/-- C15: `ServeHTTP` leaves its receiver unchanged: after the call the fields
`name`, `next`, `branch` and `matcher` are those before the call.  The calls
it makes depend on the request and the matcher only, and its effect on the
request, the matcher and the two handlers only: two plugins that agree on
these behave alike, whatever their names. -/
theorem ServeHTTP_leaves_receiver_unchanged {RW Req W : Type} (e1 e2 : Branching RW Req W)
    (rw : RW) (req : Req) (logger : String → W → W) (w : W)
    (hm : e1.matcher = e2.matcher) (hn : e1.next = e2.next) (hb : e1.branch = e2.branch) :
    (e1.ServeHTTPState rw req).1 = e1 ∧
    (e1.ServeHTTPState rw req).1.name = e1.name ∧
    (e1.ServeHTTPState rw req).1.next = e1.next ∧
    (e1.ServeHTTPState rw req).1.branch = e1.branch ∧
    (e1.ServeHTTPState rw req).1.matcher = e1.matcher ∧
    (e1.ServeHTTPState rw req).2 = e1.ServeHTTP rw req ∧
    e1.ServeHTTP rw req = e2.ServeHTTP rw req ∧
    e1.run logger rw req w = e2.run logger rw req w := by
  have hcalls : e1.ServeHTTP rw req = e2.ServeHTTP rw req := by
    simp [Branching.ServeHTTP, hm]
  have hperform : ∀ (c : Call RW Req) (w : W), e1.perform logger c w = e2.perform logger c w := by
    intro c w
    cases c <;> simp [Branching.perform, hn, hb]
  refine ⟨rfl, rfl, rfl, rfl, rfl, rfl, hcalls, ?_⟩
  unfold Branching.run
  rw [hcalls]
  congr 1
  funext w c
  exact hperform c w

/-- Witness of C15: the sample plugin and the same plugin under another name. -/
theorem ServeHTTP_leaves_receiver_unchanged_witness :
    sampleBranching.matcher = sampleRenamedBranching.matcher ∧
    sampleBranching.next = sampleRenamedBranching.next ∧
    sampleBranching.branch = sampleRenamedBranching.branch ∧
    ((sampleBranching.ServeHTTPState 7 1).1 = sampleBranching ∧
    (sampleBranching.ServeHTTPState 7 1).1.name = sampleBranching.name ∧
    (sampleBranching.ServeHTTPState 7 1).1.next = sampleBranching.next ∧
    (sampleBranching.ServeHTTPState 7 1).1.branch = sampleBranching.branch ∧
    (sampleBranching.ServeHTTPState 7 1).1.matcher = sampleBranching.matcher ∧
    (sampleBranching.ServeHTTPState 7 1).2 = sampleBranching.ServeHTTP 7 1 ∧
    sampleBranching.ServeHTTP 7 1 = sampleRenamedBranching.ServeHTTP 7 1 ∧
    sampleBranching.run (fun _ w => w) 7 1 [] = sampleRenamedBranching.run (fun _ w => w) 7 1 []) :=
  ⟨rfl, rfl, rfl,
    ServeHTTP_leaves_receiver_unchanged sampleBranching sampleRenamedBranching 7 1
      (fun _ w => w) [] rfl rfl rfl⟩

end branching

namespace sacloud

open branching (GoError GoMap)

/-! ## Numbers as text: printing and reading back -/

/-- A decimal digit character is a digit of the value it prints. -/
theorem digitChar_isDigit (k : Nat) (hk : k < 10) :
    (Nat.digitChar k).isDigit = true ∧ (Nat.digitChar k).toNat - 48 = k := by
  interval_cases k <;> exact ⟨by decide, by decide⟩

/-- Reading back the digits printed in front of a text. -/
theorem parseDigits_toDigitsCore (fuel : Nat) :
    ∀ (n : Nat) (ds : List Char), n < fuel →
      parseDigits (Nat.toDigitsCore 10 fuel n ds) 0 = parseDigits ds n := by
  induction fuel with
  | zero => intro n ds h; omega
  | succ fuel ih =>
    intro n ds h
    have hd := digitChar_isDigit (n % 10) (Nat.mod_lt _ (by decide))
    simp only [Nat.toDigitsCore]
    split
    · next h0 =>
      have hn : n % 10 = n := by omega
      rw [hn] at hd
      simp [parseDigits, hd.1, hd.2, hn]
    · next h0 =>
      rw [ih (n / 10) _ (by omega)]
      simp only [parseDigits, hd.1, hd.2, if_true]
      congr 1
      omega

/-- The characters printed for a number are decimal digits. -/
theorem toDigitsCore_all_isDigit (fuel : Nat) :
    ∀ (n : Nat) (ds : List Char), ds.all Char.isDigit = true →
      (Nat.toDigitsCore 10 fuel n ds).all Char.isDigit = true := by
  induction fuel with
  | zero => intro n ds h; simpa [Nat.toDigitsCore] using h
  | succ fuel ih =>
    intro n ds h
    have hd := digitChar_isDigit (n % 10) (Nat.mod_lt _ (by decide))
    have hcons : (Nat.digitChar (n % 10) :: ds).all Char.isDigit = true := by
      simp only [List.all_cons, hd.1, h, Bool.and_self]
    simp only [Nat.toDigitsCore]
    split
    · exact hcons
    · exact ih _ _ hcons

/-- The text printed for a number is not empty. -/
theorem toDigitsCore_ne_nil (fuel : Nat) (n : Nat) (ds : List Char) :
    Nat.toDigitsCore 10 (fuel + 1) n ds ≠ [] := by
  induction fuel generalizing n ds with
  | zero =>
    simp only [Nat.toDigitsCore]
    split <;> simp
  | succ fuel ih =>
    rw [Nat.toDigitsCore]
    split
    · simp
    · exact ih _ _

/-- The digits of a printed natural number. -/
theorem repr_data (n : Nat) : (Nat.repr n).data = Nat.toDigits 10 n := rfl

/-- Reading back a printed natural number. -/
theorem parseDigits_repr (n : Nat) : parseDigits (Nat.repr n).data 0 = some n := by
  rw [repr_data, Nat.toDigits, parseDigits_toDigitsCore (n + 1) n [] (by omega)]
  rfl

/-- A printed natural number consists of decimal digits. -/
theorem repr_all_isDigit (n : Nat) : (Nat.repr n).data.all Char.isDigit = true := by
  rw [repr_data, Nat.toDigits]
  exact toDigitsCore_all_isDigit _ _ _ rfl

/-- A printed natural number is not empty. -/
theorem repr_ne_nil (n : Nat) : (Nat.repr n).data ≠ [] := by
  rw [repr_data, Nat.toDigits]
  exact toDigitsCore_ne_nil _ _ _

/-- A text of decimal digits has no sign to strip. -/
theorem splitSign_of_all_isDigit (cs : List Char) (h : cs.all Char.isDigit = true) :
    splitSign cs = (false, cs) := by
  match cs, h with
  | [], _ => rfl
  | c :: rest, h =>
    have hc : c.isDigit = true := by
      simp only [List.all_cons, Bool.and_eq_true] at h
      exact h.1
    have h1 : c ≠ '-' := by rintro rfl; revert hc; decide
    have h2 : c ≠ '+' := by rintro rfl; revert hc; decide
    unfold splitSign
    split
    · next heq => cases heq; exact absurd rfl h1
    · next heq => cases heq; exact absurd rfl h2
    · rfl

/-- A text of decimal digits holds no given character that is not a digit. -/
theorem not_mem_of_all_isDigit (sep : Char) (hsep : sep.isDigit = false) (cs : List Char)
    (h : cs.all Char.isDigit = true) : sep ∉ cs := by
  intro hmem
  have := List.all_eq_true.1 h sep hmem
  rw [hsep] at this
  cases this

/-- Reading digits succeeds exactly on texts of decimal digits. -/
theorem parseDigits_isSome (cs : List Char) :
    ∀ acc, (parseDigits cs acc).isSome = cs.all Char.isDigit := by
  induction cs with
  | nil => intro acc; rfl
  | cons c cs ih =>
    intro acc
    by_cases hc : c.isDigit = true
    · simp [parseDigits, hc, ih]
    · simp [parseDigits, hc]

/-- The function `Atoi` reads back what `%d` prints of an `int`. -/
theorem Atoi_formatInt (n : Int) (hlo : -(2 ^ 63 : Int) ≤ n) (hhi : n < (2 ^ 63 : Int)) :
    Atoi (formatInt n) = Except.ok n := by
  cases n with
  | ofNat m =>
    have hm : m < 2 ^ 63 := by
      have : (m : Int) < 2 ^ 63 := hhi
      exact_mod_cast this
    have hsign := splitSign_of_all_isDigit _ (repr_all_isDigit m)
    simp only [Atoi, formatInt, hsign, repr_ne_nil m, if_false, parseDigits_repr]
    have : ¬ m ≥ 2 ^ 63 := by omega
    rw [if_neg (by simp), if_neg this]
    rfl
  | negSucc m =>
    have hm : m + 1 ≤ 2 ^ 63 := by
      have h1 : -(2 ^ 63 : Int) ≤ Int.negSucc m := hlo
      rw [Int.negSucc_eq] at h1
      have h2 : ((m : Int) + 1) ≤ 2 ^ 63 := by omega
      exact_mod_cast h2
    have hdata : (formatInt (Int.negSucc m)).data = '-' :: (Nat.repr (m + 1)).data := by
      simp [formatInt, String.data_append]
    have hsign : splitSign ('-' :: (Nat.repr (m + 1)).data) = (true, (Nat.repr (m + 1)).data) :=
      rfl
    simp only [Atoi, hdata, hsign, repr_ne_nil (m + 1), if_false, parseDigits_repr, if_true]
    have : ¬ m + 1 > 2 ^ 63 := by omega
    simp only [this, if_false]
    rw [Int.negSucc_eq]
    push_cast
    rfl

/-- The function `Atoi` fails on a text that is not a decimal integer. -/
theorem Atoi_of_not_decimal (cs : List Char) (h : isDecimalInteger cs = false) :
    ∃ err, Atoi (String.mk cs) = Except.error err := by
  unfold Atoi
  simp only
  split
  · exact ⟨_, rfl⟩
  · next hne =>
    have hall : (splitSign cs).2.all Char.isDigit = false := by
      unfold isDecimalInteger at h
      have hemp : (splitSign cs).2.isEmpty = false := by
        cases hs : (splitSign cs).2 with
        | nil => exact absurd hs hne
        | cons _ _ => rfl
      simpa [hemp] using h
    have hnone : parseDigits (splitSign cs).2 0 = none := by
      have := parseDigits_isSome (splitSign cs).2 0
      rw [hall] at this
      cases hp : parseDigits (splitSign cs).2 0 with
      | none => rfl
      | some v => rw [hp] at this; cases this
    simp only [hnone]
    exact ⟨_, rfl⟩

/-! ## Splitting -/

/-- Splitting gives at least one piece. -/
theorem splitChars_ne_nil (sep : Char) (cs : List Char) : splitChars sep cs ≠ [] := by
  cases cs with
  | nil => simp [splitChars]
  | cons c cs =>
    simp only [splitChars]
    split
    · simp
    · split <;> simp

/-- A text without the separator is its only piece. -/
theorem splitChars_of_not_mem (sep : Char) (cs : List Char) (h : sep ∉ cs) :
    splitChars sep cs = [cs] := by
  induction cs with
  | nil => rfl
  | cons c cs ih =>
    have hc : c ≠ sep := fun heq => h (heq ▸ List.mem_cons_self _ _)
    have hcs : sep ∉ cs := fun hmem => h (List.mem_cons_of_mem _ hmem)
    simp [splitChars, hc, ih hcs]

/-- Splitting a text that begins with another character than the separator. -/
theorem splitChars_cons_ne (sep c : Char) (cs : List Char) (hc : c ≠ sep) :
    splitChars sep (c :: cs)
      = (c :: (splitChars sep cs).headD []) :: (splitChars sep cs).tail := by
  simp only [splitChars, hc, if_false]
  cases splitChars sep cs <;> rfl

/-- Splitting around an occurrence of the separator. -/
theorem splitChars_append (sep : Char) (xs ys : List Char) :
    splitChars sep (xs ++ sep :: ys) = splitChars sep xs ++ splitChars sep ys := by
  induction xs with
  | nil => simp [splitChars]
  | cons c xs ih =>
    by_cases hc : c = sep
    · simp [splitChars, hc, ih]
    · rw [List.cons_append, splitChars_cons_ne sep c _ hc, splitChars_cons_ne sep c _ hc, ih]
      cases hx : splitChars sep xs with
      | nil => exact absurd hx (splitChars_ne_nil sep xs)
      | cons piece pieces => rfl

/-- The last piece of a text is what follows its last separator. -/
theorem splitChars_getLast (sep : Char) (pre seg : List Char)
    (hpre : pre = [] ∨ pre.getLast? = some sep) (hseg : sep ∉ seg) :
    (splitChars sep (pre ++ seg)).getLast? = some seg := by
  rcases hpre with hpre | hpre
  · subst hpre
    simp [splitChars_of_not_mem sep seg hseg]
  · obtain ⟨front, hfront⟩ : ∃ front, pre = front ++ [sep] := by
      rcases List.eq_nil_or_concat pre with h | ⟨front, last, h⟩
      · subst h; simp at hpre
      · subst h
        simp at hpre
        subst hpre
        exact ⟨front, by simp⟩
    subst hfront
    rw [List.append_assoc, List.singleton_append, splitChars_append,
      splitChars_of_not_mem sep seg hseg]
    simp

/-- The last element of `strings.Split`, as `classes[len(classes)-1]` reads it. -/
theorem Split_last (s : String) (sep : Char) (pre seg : List Char) (hs : s.data = pre ++ seg)
    (hpre : pre = [] ∨ pre.getLast? = some sep) (hseg : sep ∉ seg) :
    (Split s sep)[(Split s sep).length - 1]? = some (String.mk seg) := by
  have h := splitChars_getLast sep pre seg hpre hseg
  rw [← hs, List.getLast?_eq_getElem?] at h
  simp [Split, h]

/-! ## Switch: the two address methods -/

/-- With a last byte `255` as upper bound the loop condition never fails: the
loop does not return, whatever the fuel. -/
theorem GetIPAddressListLoop_never_returns (baseIP : IPv4) (min max : Nat) (hmax : 255 ≤ max) :
    ∀ (fuel i : Nat) (ret : List String),
      GetIPAddressListLoop baseIP min max fuel i ret = Outcome.outOfFuel := by
  intro fuel
  induction fuel with
  | zero => intro i ret; rfl
  | succ fuel ih =>
    intro i ret
    have h : (min + i) % 256 ≤ max := by
      have := Nat.mod_lt (min + i) (by decide : 256 > 0)
      omega
    simp only [GetIPAddressListLoop, h, if_true]
    exact ih _ _

/-- With an upper bound below `255` the loop returns after visiting the
remaining last bytes, each once, in ascending order. -/
theorem GetIPAddressListLoop_returns (baseIP : IPv4) (max : Nat) (hmax : max ≤ 254) :
    ∀ (n i fuel : Nat) (ret : List String), baseIP.b3 + i + n = max + 1 → n < fuel →
      GetIPAddressListLoop baseIP baseIP.b3 max fuel i ret
        = Outcome.returned (ret ++ (List.range' i n).map
            (fun k => IPv4String baseIP.b0 baseIP.b1 baseIP.b2 (baseIP.b3 + k))) := by
  intro n
  induction n with
  | zero =>
    intro i fuel ret hsum hfuel
    obtain ⟨f, rfl⟩ : ∃ f, fuel = f + 1 := ⟨fuel - 1, by omega⟩
    have hmod : (baseIP.b3 + i) % 256 = baseIP.b3 + i := Nat.mod_eq_of_lt (by omega)
    have hcond : ¬ (baseIP.b3 + i) % 256 ≤ max := by rw [hmod]; omega
    simp [GetIPAddressListLoop, hcond]
  | succ n ih =>
    intro i fuel ret hsum hfuel
    obtain ⟨f, rfl⟩ : ∃ f, fuel = f + 1 := ⟨fuel - 1, by omega⟩
    have hmod : (baseIP.b3 + i) % 256 = baseIP.b3 + i := Nat.mod_eq_of_lt (by omega)
    have hi : (i + 1) % 256 = i + 1 := Nat.mod_eq_of_lt (by omega)
    have hcond : baseIP.b3 + i ≤ max := by omega
    simp only [GetIPAddressListLoop, hmod, hcond, if_true, hi]
    rw [ih (i + 1) f _ (by omega) (by omega)]
    simp [List.range'_succ]

/-- The method `GetIPAddressList` on a switch whose first subnet has
addresses that parse, the last byte of `Max` being below `255` and not below
that of `Min`: with enough fuel it returns, with a `nil` error, the addresses
from `Min` to `Max`, bounds included, in ascending order. -/
theorem GetIPAddressList_of_valid (parseTo4 : String → Option IPv4) (s : Switch)
    (subnet : SwitchSubnet) (rest : List SwitchSubnet) (baseIP maxIP : IPv4) (fuel : Nat)
    (hs : s.Subnets = some (subnet :: rest))
    (hmin : parseTo4 subnet.IPAddresses.Min = some baseIP)
    (hmax : parseTo4 subnet.IPAddresses.Max = some maxIP)
    (hle : baseIP.b3 ≤ maxIP.b3) (h254 : maxIP.b3 ≤ 254)
    (hfuel : maxIP.b3 - baseIP.b3 + 1 < fuel) :
    s.GetIPAddressList parseTo4 fuel
      = Outcome.returned
          (some ((List.range (maxIP.b3 - baseIP.b3 + 1)).map
            (fun k => IPv4String baseIP.b0 baseIP.b1 baseIP.b2 (baseIP.b3 + k))), none) := by
  have hloop := GetIPAddressListLoop_returns baseIP maxIP.b3 h254
    (maxIP.b3 - baseIP.b3 + 1) 0 fuel [] (by omega) hfuel
  have hmiss : s.subnetsMissing = false := by simp [Switch.subnetsMissing, hs]
  have hfirst : (s.Subnets.bind fun subnets => subnets[0]?) = some subnet := by simp [hs]
  simp only [Switch.GetIPAddressList, hmiss, Bool.false_eq_true, if_false, hfirst, hmin, hmax,
    hloop]
  simp [List.range_eq_range']

/-- The method `GetDefaultIPAddressesForVPCRouter` on a switch whose first
subnet has a `Min` address that parses: it returns, with a `nil` error, that
address and the two addresses whose last byte is the last byte of `Min` plus
one and plus two, in byte arithmetic. -/
theorem GetDefaultIPAddressesForVPCRouter_of_valid (parseTo4 : String → Option IPv4)
    (s : Switch) (subnet : SwitchSubnet) (rest : List SwitchSubnet) (baseAddress : IPv4)
    (hs : s.Subnets = some (subnet :: rest))
    (hmin : parseTo4 subnet.IPAddresses.Min = some baseAddress) :
    s.GetDefaultIPAddressesForVPCRouter parseTo4
      = Outcome.returned
          ((IPv4String baseAddress.b0 baseAddress.b1 baseAddress.b2 baseAddress.b3,
            IPv4String baseAddress.b0 baseAddress.b1 baseAddress.b2
              ((baseAddress.b3 + 1) % 256),
            IPv4String baseAddress.b0 baseAddress.b1 baseAddress.b2
              ((baseAddress.b3 + 2) % 256)), none) := by
  simp [Switch.GetDefaultIPAddressesForVPCRouter, Switch.subnetsMissing, hs, hmin]

/-- On a switch that carries its resource, each of the two methods returns a
non-nil error exactly when `Subnets` is `nil` or empty, and then returns the
`nil` list, or three empty strings. -/
theorem Switch_error_iff_subnets_missing (parseTo4 : String → Option IPv4) (fuel : Nat)
    (s : Switch) (res : Resource) (hres : s.Resource = some res) :
    ((∃ list err, s.GetIPAddressList parseTo4 fuel = Outcome.returned (list, some err))
      ↔ s.subnetsMissing = true) ∧
    ((∃ strs err, s.GetDefaultIPAddressesForVPCRouter parseTo4
        = Outcome.returned (strs, some err)) ↔ s.subnetsMissing = true) ∧
    (s.subnetsMissing = true →
      s.GetIPAddressList parseTo4 fuel
        = Outcome.returned (none, some (subnetsNilError res.ID)) ∧
      s.GetDefaultIPAddressesForVPCRouter parseTo4
        = Outcome.returned (("", "", ""), some (subnetsNilError res.ID))) := by
  refine ⟨⟨?_, ?_⟩, ⟨?_, ?_⟩, ?_⟩
  · rintro ⟨list, err, h⟩
    cases hm : s.subnetsMissing with
    | true => rfl
    | false =>
      exfalso
      simp only [Switch.GetIPAddressList, hm, Bool.false_eq_true, if_false] at h
      split at h
      · cases h
      · split at h
        · cases h
        · split at h
          · cases h
          · split at h <;> cases h
  · intro hmiss
    exact ⟨none, subnetsNilError res.ID, by simp [Switch.GetIPAddressList, hmiss, hres]⟩
  · rintro ⟨strs, err, h⟩
    cases hm : s.subnetsMissing with
    | true => rfl
    | false =>
      exfalso
      simp only [Switch.GetDefaultIPAddressesForVPCRouter, hm, Bool.false_eq_true,
        if_false] at h
      split at h
      · cases h
      · split at h <;> cases h
  · intro hmiss
    exact ⟨("", "", ""), subnetsNilError res.ID,
      by simp [Switch.GetDefaultIPAddressesForVPCRouter, hmiss, hres]⟩
  · intro hmiss
    constructor
    · simp [Switch.GetIPAddressList, hmiss, hres]
    · simp [Switch.GetDefaultIPAddressesForVPCRouter, hmiss, hres]

/-- The method `GetIPAddressList` on a switch whose first subnet has addresses
that parse, the last byte of `Max` being `255`: the loop does not return,
whatever the fuel. -/
theorem GetIPAddressList_of_max_255 (parseTo4 : String → Option IPv4) (s : Switch)
    (subnet : SwitchSubnet) (rest : List SwitchSubnet) (baseIP maxIP : IPv4)
    (hs : s.Subnets = some (subnet :: rest))
    (hmin : parseTo4 subnet.IPAddresses.Min = some baseIP)
    (hmax : parseTo4 subnet.IPAddresses.Max = some maxIP)
    (h255 : 255 ≤ maxIP.b3) (fuel : Nat) :
    s.GetIPAddressList parseTo4 fuel = Outcome.outOfFuel := by
  have hmiss : s.subnetsMissing = false := by simp [Switch.subnetsMissing, hs]
  have hfirst : (s.Subnets.bind fun subnets => subnets[0]?) = some subnet := by simp [hs]
  have hloop := GetIPAddressListLoop_never_returns baseIP baseIP.b3 maxIP.b3 h255 fuel 0 []
  simp only [Switch.GetIPAddressList, hmiss, Bool.false_eq_true, if_false, hfirst, hmin, hmax,
    hloop]

/-- C16: the code at the failing input.  For the switch whose first subnet has
`Min = 192.168.0.250` and `Max = 192.168.0.255`, `GetIPAddressList` does not
return, whatever the fuel: with a byte counter the condition
`(min + i) <= max` holds for every `i` when `max` is `255`.  With
`Max = 192.168.0.254` it returns the five addresses of the range. -/
theorem GetIPAddressList_max_255_never_returns :
    sampleParseTo4 "192.168.0.250" = some { b0 := 192, b1 := 168, b2 := 0, b3 := 250 } ∧
    sampleParseTo4 "192.168.0.255" = some { b0 := 192, b1 := 168, b2 := 0, b3 := 255 } ∧
    (∀ fuel : Nat,
      (sampleSwitch "192.168.0.250" "192.168.0.255").GetIPAddressList sampleParseTo4 fuel
        = Outcome.outOfFuel) ∧
    (sampleSwitch "192.168.0.250" "192.168.0.254").GetIPAddressList sampleParseTo4 6
      = Outcome.returned
          (some ["192.168.0.250", "192.168.0.251", "192.168.0.252", "192.168.0.253",
            "192.168.0.254"], none) := by
  refine ⟨by decide, by decide, ?_, by decide⟩
  intro fuel
  exact GetIPAddressList_of_max_255 sampleParseTo4 _
    { IPAddresses := { Min := "192.168.0.250", Max := "192.168.0.255" } } []
    { b0 := 192, b1 := 168, b2 := 0, b3 := 250 } { b0 := 192, b1 := 168, b2 := 0, b3 := 255 }
    rfl (by decide) (by decide) (by decide) fuel

/-- C17: the code at the failing inputs.  For `Min = 192.168.0.255` the
method returns `192.168.0.255`, `192.168.0.0` and `192.168.0.1`, and for
`Min = 192.168.0.254` it returns `192.168.0.254`, `192.168.0.255` and
`192.168.0.0`: the last byte wraps around, and the three addresses are not
consecutive.  For `Min = 192.168.0.253` they are. -/
theorem GetDefaultIPAddressesForVPCRouter_wraps :
    (sampleSwitch "192.168.0.255" "192.168.0.255").GetDefaultIPAddressesForVPCRouter
        sampleParseTo4
      = Outcome.returned (("192.168.0.255", "192.168.0.0", "192.168.0.1"), none) ∧
    (sampleSwitch "192.168.0.254" "192.168.0.255").GetDefaultIPAddressesForVPCRouter
        sampleParseTo4
      = Outcome.returned (("192.168.0.254", "192.168.0.255", "192.168.0.0"), none) ∧
    (sampleSwitch "192.168.0.253" "192.168.0.255").GetDefaultIPAddressesForVPCRouter
        sampleParseTo4
      = Outcome.returned (("192.168.0.253", "192.168.0.254", "192.168.0.255"), none) := by
  refine ⟨by decide, by decide, by decide⟩

/-- C18: the code at the failing input.  On the zero value of `Switch`, whose
`Subnets` is `nil` and whose embedded `*Resource` is `nil`, neither method
returns an error: formatting the error reads `s.ID` through the `nil` pointer
and the call panics.  On a switch with ID `7` and empty `Subnets` both return
the error. -/
theorem Switch_zero_value_panics :
    sampleSwitchZero.Subnets = none ∧
    sampleSwitchZero.Resource = none ∧
    (∀ fuel : Nat, sampleSwitchZero.GetIPAddressList sampleParseTo4 fuel = Outcome.panicked) ∧
    sampleSwitchZero.GetDefaultIPAddressesForVPCRouter sampleParseTo4 = Outcome.panicked ∧
    sampleSwitchEmpty.GetIPAddressList sampleParseTo4 1
      = Outcome.returned (none, some (GoError.new "switch[7].Subnets is nil")) ∧
    sampleSwitchEmpty.GetDefaultIPAddressesForVPCRouter sampleParseTo4
      = Outcome.returned (("", "", ""), some (GoError.new "switch[7].Subnets is nil")) := by
  refine ⟨rfl, rfl, fun fuel => rfl, rfl, by decide, by decide⟩

/-! ## ProxyLB plan -/

/-- What `%d` prints holds no `/`. -/
theorem slash_not_mem_formatInt (n : Int) : '/' ∉ (formatInt n).data := by
  cases n with
  | ofNat m =>
    exact not_mem_of_all_isDigit _ (by decide) _ (repr_all_isDigit m)
  | negSucc m =>
    have hdata : (formatInt (Int.negSucc m)).data = '-' :: (Nat.repr (m + 1)).data := by
      simp [formatInt, String.data_append]
    rw [hdata]
    intro hmem
    rcases List.mem_cons.1 hmem with h | h
    · revert h; decide
    · exact not_mem_of_all_isDigit _ (by decide) _ (repr_all_isDigit (m + 1)) h

/-- C19: for every plan value `plan` of an `int`, `GetPlan` after
`SetPlan(plan)` returns `plan`; and for every ProxyLB whose service class is
`pre ++ seg`, where `seg` is the text after the last `/` (or the whole text)
and is not a decimal integer, `GetPlan` returns the default plan `1000`
without panicking.  The empty service class is the case of empty `pre` and
`seg`. -/
theorem GetPlan_SetPlan_and_default (p q : ProxyLB) (plan : ProxyLBPlan) (pre seg : List Char)
    (hlo : -(2 ^ 63 : Int) ≤ plan) (hhi : plan < (2 ^ 63 : Int))
    (hq : q.ServiceClass.data = pre ++ seg) (hpre : pre = [] ∨ pre.getLast? = some '/')
    (hseg : '/' ∉ seg) (hnot : isDecimalInteger seg = false) :
    (p.SetPlan plan).GetPlan = Outcome.returned plan ∧
    q.GetPlan = Outcome.returned ProxyLBPlan1000 := by
  constructor
  · have hdata : (p.SetPlan plan).ServiceClass.data
        = "cloud/proxylb/plain/".data ++ (formatInt plan).data := by
      simp [ProxyLB.SetPlan, String.data_append]
    have hlast := Split_last (p.SetPlan plan).ServiceClass '/' _ _ hdata
      (Or.inr (by decide)) (slash_not_mem_formatInt plan)
    have hmk : String.mk (formatInt plan).data = formatInt plan := rfl
    rw [hmk] at hlast
    simp only [ProxyLB.GetPlan, hlast, Atoi_formatInt plan hlo hhi]
  · have hlast := Split_last q.ServiceClass '/' pre seg hq hpre hseg
    obtain ⟨err, herr⟩ := Atoi_of_not_decimal seg hnot
    simp only [ProxyLB.GetPlan, hlast, herr]

/-- Witness of C19: the plan `500`, and the empty service class. -/
theorem GetPlan_SetPlan_and_default_witness :
    -(2 ^ 63 : Int) ≤ (500 : ProxyLBPlan) ∧ (500 : ProxyLBPlan) < (2 ^ 63 : Int) ∧
    (ProxyLB.mk "").ServiceClass.data = [] ++ [] ∧
    (([] : List Char) = [] ∨ ([] : List Char).getLast? = some '/') ∧
    '/' ∉ ([] : List Char) ∧ isDecimalInteger [] = false ∧
    (((ProxyLB.mk "cloud/proxylb/plain/100").SetPlan 500).GetPlan = Outcome.returned 500 ∧
    (ProxyLB.mk "").GetPlan = Outcome.returned ProxyLBPlan1000) :=
  ⟨by decide, by decide, rfl, Or.inl rfl, by simp, rfl,
    GetPlan_SetPlan_and_default (ProxyLB.mk "cloud/proxylb/plain/100") (ProxyLB.mk "") 500 [] []
      (by decide) (by decide) rfl (Or.inl rfl) (by simp) rfl⟩

/-! ## Load balancer -/

/-- Adding settings leaves the remark of a load balancer as it is. -/
theorem foldl_AddLoadBalancerSetting_Remark (settings : List (Option LoadBalancerSetting)) :
    ∀ lb : LoadBalancer,
      (settings.foldl LoadBalancer.AddLoadBalancerSetting lb).Remark = lb.Remark := by
  induction settings with
  | nil => intro lb; rfl
  | cons setting rest ih =>
    intro lb
    rw [List.foldl_cons, ih]
    rfl

/-- The three address methods read the servers of the remark only. -/
theorem LoadBalancer_methods_of_servers (l : LoadBalancer) (servers : List ServerEntry)
    (h : l.remarkServers = some servers) :
    l.IsHA = (if servers.length > 1 then
        match serverIPAddress servers 1 with
        | some _ => Outcome.returned true
        | none => Outcome.returned false
      else Outcome.returned false) ∧
    l.IPAddress1 = (if servers.length > 0 then
        match serverIPAddress servers 0 with
        | some v => Outcome.returned v
        | none => Outcome.returned ""
      else Outcome.returned "") ∧
    l.IPAddress2 = (if servers.length > 1 then
        match serverIPAddress servers 1 with
        | some v => Outcome.returned v
        | none => Outcome.returned ""
      else Outcome.returned "") := by
  refine ⟨?_, ?_, ?_⟩ <;>
    simp only [LoadBalancer.IsHA, LoadBalancer.IPAddress1, LoadBalancer.IPAddress2, h]

/-- Appending a server to the remark of a load balancer whose servers can be
read. -/
theorem appendServer_remarkServers (l : LoadBalancer) (servers : List ServerEntry)
    (entry : ServerEntry) (h : l.remarkServers = some servers) :
    ∃ l2, l.appendServer entry = some l2 ∧ l2.remarkServers = some (servers ++ [entry]) := by
  unfold LoadBalancer.remarkServers at h
  unfold LoadBalancer.appendServer
  cases hr : l.Remark with
  | none => rw [hr] at h; cases h
  | some remark =>
    rw [hr] at h
    cases hb : remark.ApplianceRemarkBase with
    | none => simp only [hb] at h; cases h
    | some base =>
      simp only [hb, Option.some.injEq] at h
      subst h
      simp only [hb]
      exact ⟨_, rfl, rfl⟩

/-- C20: for every value set and every list of settings,
`CreateNewLoadBalancerSingle` returns, with a `nil` error, a load balancer
with `IsHA() = false`, `IPAddress1() = values.IPAddress1` and
`IPAddress2() = ""`; and `CreateNewLoadBalancerDouble`, given the same value
set and a second address, returns one with `IsHA() = true`,
`IPAddress1() = values.IPAddress1` and `IPAddress2() = values.IPAddress2`. -/
theorem CreateNewLoadBalancer_IsHA (values : CreateLoadBalancerValue) (ip2 : String)
    (settings : List (Option LoadBalancerSetting)) :
    (∃ lb, CreateNewLoadBalancerSingle (some values) settings
        = Outcome.returned (some lb, none) ∧
      lb.IsHA = Outcome.returned false ∧
      lb.IPAddress1 = Outcome.returned values.IPAddress1 ∧
      lb.IPAddress2 = Outcome.returned "") ∧
    (∃ lb, CreateNewLoadBalancerDouble
          (some { CreateLoadBalancerValue := some values, IPAddress2 := ip2 }) settings
        = Outcome.returned (some lb, none) ∧
      lb.IsHA = Outcome.returned true ∧
      lb.IPAddress1 = Outcome.returned values.IPAddress1 ∧
      lb.IPAddress2 = Outcome.returned ip2) := by
  have hget : ∀ v : String, (ipAddressMap v).get? "IPAddress" = some v := by
    intro v
    simp [ipAddressMap, GoMap.get?, branching.lookupEntry]
  have hremark := foldl_AddLoadBalancerSetting_Remark settings (newLoadBalancer values)
  constructor
  · refine ⟨settings.foldl LoadBalancer.AddLoadBalancerSetting (newLoadBalancer values),
      rfl, ?_⟩
    have hservers : LoadBalancer.remarkServers
        (settings.foldl LoadBalancer.AddLoadBalancerSetting (newLoadBalancer values))
        = some [ServerEntry.mapStringString (ipAddressMap values.IPAddress1)] := by
      unfold LoadBalancer.remarkServers
      rw [hremark]
      rfl
    obtain ⟨h1, h2, h3⟩ := LoadBalancer_methods_of_servers _ _ hservers
    rw [h1, h2, h3]
    simp [serverIPAddress, hget]
  · have hservers : LoadBalancer.remarkServers
        (settings.foldl LoadBalancer.AddLoadBalancerSetting (newLoadBalancer values))
        = some [ServerEntry.mapStringString (ipAddressMap values.IPAddress1)] := by
      unfold LoadBalancer.remarkServers
      rw [hremark]
      rfl
    obtain ⟨lb, happend, hlb⟩ := appendServer_remarkServers _ _
      (ServerEntry.mapStringString (ipAddressMap ip2)) hservers
    refine ⟨lb, ?_, ?_⟩
    · simp only [CreateNewLoadBalancerDouble, CreateNewLoadBalancerSingle, happend]
    · obtain ⟨h1, h2, h3⟩ := LoadBalancer_methods_of_servers _ _ hlb
      rw [h1, h2, h3]
      simp [serverIPAddress, hget]

/-! ## ProxyLB settings: deleting bind ports and servers -/

/-- The entries of a slice after `append`. -/
theorem sliceEntries_appendSlice {α : Type} (s : Option (List α)) (x : α) :
    sliceEntries (appendSlice s x) = sliceEntries s ++ [x] := rfl

/-- The loop of `DeleteBindPort` over elements that are all non-nil returns,
and has appended the elements that do not match, in order. -/
theorem DeleteBindPortLoop_returns (mode : String) (port : Int) (ports : List ProxyLBBindPorts) :
    ∀ res : Option (List (Option ProxyLBBindPorts)),
      ∃ out, DeleteBindPortLoop mode port (ports.map some) res = Outcome.returned out ∧
        sliceEntries out = sliceEntries res
          ++ (ports.filter (fun b => decide (¬ (b.ProxyMode = mode ∧ b.Port = port)))).map some := by
  induction ports with
  | nil => intro res; exact ⟨res, rfl, by simp⟩
  | cons b rest ih =>
    intro res
    by_cases hkeep : b.ProxyMode ≠ mode ∨ b.Port ≠ port
    · obtain ⟨out, hout, hentries⟩ := ih (appendSlice res (some b))
      have hnot : ¬ (b.ProxyMode = mode ∧ b.Port = port) := by
        rintro ⟨h1, h2⟩
        rcases hkeep with h | h
        · exact h h1
        · exact h h2
      refine ⟨out, ?_, ?_⟩
      · simp only [List.map_cons, DeleteBindPortLoop, hkeep, if_true]
        exact hout
      · have hf : (b :: rest).filter (fun b => decide (¬ (b.ProxyMode = mode ∧ b.Port = port)))
            = b :: rest.filter (fun b => decide (¬ (b.ProxyMode = mode ∧ b.Port = port))) :=
          List.filter_cons_of_pos (decide_eq_true hnot)
        rw [hentries, sliceEntries_appendSlice, hf]
        simp
    · obtain ⟨out, hout, hentries⟩ := ih res
      have hboth : b.ProxyMode = mode ∧ b.Port = port := by
        constructor
        · by_contra h; exact hkeep (Or.inl h)
        · by_contra h; exact hkeep (Or.inr h)
      refine ⟨out, ?_, ?_⟩
      · simp only [List.map_cons, DeleteBindPortLoop, hkeep, if_false]
        exact hout
      · have hf : (b :: rest).filter (fun b => decide (¬ (b.ProxyMode = mode ∧ b.Port = port)))
            = rest.filter (fun b => decide (¬ (b.ProxyMode = mode ∧ b.Port = port))) :=
          List.filter_cons_of_neg (fun h => (of_decide_eq_true h) hboth)
        rw [hentries, hf]

/-- The loop of `DeleteServer` has appended the elements that do not match, in
order. -/
theorem DeleteServerLoop_entries (ip : String) (port : Int) (servers : List ProxyLBServer) :
    ∀ res : Option (List ProxyLBServer),
      sliceEntries (DeleteServerLoop ip port servers res)
        = sliceEntries res
          ++ servers.filter (fun v => decide (¬ (v.IPAddress = ip ∧ v.Port = port))) := by
  induction servers with
  | nil => intro res; simp [DeleteServerLoop]
  | cons v rest ih =>
    intro res
    by_cases hkeep : v.IPAddress ≠ ip ∨ v.Port ≠ port
    · have hnot : ¬ (v.IPAddress = ip ∧ v.Port = port) := by
        rintro ⟨h1, h2⟩
        rcases hkeep with h | h
        · exact h h1
        · exact h h2
      simp only [DeleteServerLoop, hkeep, if_true]
      have hf : (v :: rest).filter (fun v => decide (¬ (v.IPAddress = ip ∧ v.Port = port)))
          = v :: rest.filter (fun v => decide (¬ (v.IPAddress = ip ∧ v.Port = port))) :=
        List.filter_cons_of_pos (decide_eq_true hnot)
      rw [ih, sliceEntries_appendSlice, hf]
      simp
    · have hboth : v.IPAddress = ip ∧ v.Port = port := by
        constructor
        · by_contra h; exact hkeep (Or.inl h)
        · by_contra h; exact hkeep (Or.inr h)
      simp only [DeleteServerLoop, hkeep, if_false]
      have hf : (v :: rest).filter (fun v => decide (¬ (v.IPAddress = ip ∧ v.Port = port)))
          = rest.filter (fun v => decide (¬ (v.IPAddress = ip ∧ v.Port = port))) :=
        List.filter_cons_of_neg (fun h => (of_decide_eq_true h) hboth)
      rw [ih, hf]

/-- C21: on a setting whose bind ports are the entries `ports`,
`DeleteBindPort(mode, port)` returns, and the bind ports afterwards are
exactly the entries of `ports` whose mode or port differs, in their original
order: no entry with that mode and port remains, and the servers are left as
they were.  Likewise `DeleteServer(ip, port)` leaves exactly the servers whose
address or port differs, in their original order, and the bind ports as they
were. -/
theorem Delete_removes_matching_entries (s : ProxyLBSetting) (ports : List ProxyLBBindPorts)
    (mode : String) (port : Int) (ip : String) (serverPort : Int)
    (hports : sliceEntries s.BindPorts = ports.map some) :
    (∃ s2, s.DeleteBindPort mode port = Outcome.returned s2 ∧
      sliceEntries s2.BindPorts
        = (ports.filter (fun b => decide (¬ (b.ProxyMode = mode ∧ b.Port = port)))).map some ∧
      (∀ b, some b ∈ sliceEntries s2.BindPorts → ¬ (b.ProxyMode = mode ∧ b.Port = port)) ∧
      (∀ b, b ∈ ports → ¬ (b.ProxyMode = mode ∧ b.Port = port) →
        some b ∈ sliceEntries s2.BindPorts) ∧
      (sliceEntries s2.BindPorts).Sublist (sliceEntries s.BindPorts) ∧
      s2.Servers = s.Servers) ∧
    (sliceEntries (s.DeleteServer ip serverPort).Servers
        = (sliceEntries s.Servers).filter
            (fun v => decide (¬ (v.IPAddress = ip ∧ v.Port = serverPort))) ∧
      (∀ v, v ∈ sliceEntries (s.DeleteServer ip serverPort).Servers →
        ¬ (v.IPAddress = ip ∧ v.Port = serverPort)) ∧
      (∀ v, v ∈ sliceEntries s.Servers → ¬ (v.IPAddress = ip ∧ v.Port = serverPort) →
        v ∈ sliceEntries (s.DeleteServer ip serverPort).Servers) ∧
      (sliceEntries (s.DeleteServer ip serverPort).Servers).Sublist (sliceEntries s.Servers) ∧
      (s.DeleteServer ip serverPort).BindPorts = s.BindPorts) := by
  constructor
  · obtain ⟨out, hout, hentries⟩ := DeleteBindPortLoop_returns mode port ports none
    have hentries2 : sliceEntries out
        = (ports.filter (fun b => decide (¬ (b.ProxyMode = mode ∧ b.Port = port)))).map some := by
      rw [hentries]; rfl
    refine ⟨{ s with BindPorts := out }, ?_, hentries2, ?_, ?_, ?_, rfl⟩
    · simp only [ProxyLBSetting.DeleteBindPort, hports, hout]
    · intro b hb
      have hb2 : some b ∈ sliceEntries out := hb
      rw [hentries2] at hb2
      obtain ⟨b2, hmem, heq⟩ := List.mem_map.1 hb2
      cases heq
      exact of_decide_eq_true (List.mem_filter.1 hmem).2
    · intro b hb hnot
      show some b ∈ sliceEntries out
      rw [hentries2]
      exact List.mem_map.2 ⟨b, List.mem_filter.2 ⟨hb, decide_eq_true hnot⟩, rfl⟩
    · show (sliceEntries out).Sublist (sliceEntries s.BindPorts)
      rw [hentries2, hports]
      exact (List.filter_sublist _).map some
  · have hentries := DeleteServerLoop_entries ip serverPort (sliceEntries s.Servers) none
    have hentries2 : sliceEntries (s.DeleteServer ip serverPort).Servers
        = (sliceEntries s.Servers).filter
            (fun v => decide (¬ (v.IPAddress = ip ∧ v.Port = serverPort))) := by
      show sliceEntries (DeleteServerLoop ip serverPort (sliceEntries s.Servers) none) = _
      rw [hentries]; rfl
    refine ⟨hentries2, ?_, ?_, ?_, rfl⟩
    · intro v hv
      rw [hentries2] at hv
      exact of_decide_eq_true (List.mem_filter.1 hv).2
    · intro v hv hnot
      rw [hentries2]
      exact List.mem_filter.2 ⟨hv, decide_eq_true hnot⟩
    · rw [hentries2]
      exact List.filter_sublist _

/-- Witness of C21: the sample setting, deleting the bind port `http 80` and
the server `192.168.0.1 80`. -/
theorem Delete_removes_matching_entries_witness :
    sliceEntries sampleSetting.BindPorts
      = [sampleBindPort "http" 80, sampleBindPort "https" 443,
          sampleBindPort "http" 8080].map some ∧
    sampleSetting.DeleteBindPort "http" 80
      = Outcome.returned { sampleSetting with
          BindPorts := some [some (sampleBindPort "https" 443),
            some (sampleBindPort "http" 8080)] } ∧
    (sampleSetting.DeleteServer "192.168.0.1" 80).Servers
      = some [sampleServer "192.168.0.2" 80, sampleServer "192.168.0.1" 8080] ∧
    ((∃ s2, sampleSetting.DeleteBindPort "http" 80 = Outcome.returned s2 ∧
      sliceEntries s2.BindPorts
        = ([sampleBindPort "http" 80, sampleBindPort "https" 443,
            sampleBindPort "http" 8080].filter
            (fun b => decide (¬ (b.ProxyMode = "http" ∧ b.Port = 80)))).map some ∧
      (∀ b, some b ∈ sliceEntries s2.BindPorts → ¬ (b.ProxyMode = "http" ∧ b.Port = 80)) ∧
      (∀ b, b ∈ [sampleBindPort "http" 80, sampleBindPort "https" 443,
            sampleBindPort "http" 8080] → ¬ (b.ProxyMode = "http" ∧ b.Port = 80) →
        some b ∈ sliceEntries s2.BindPorts) ∧
      (sliceEntries s2.BindPorts).Sublist (sliceEntries sampleSetting.BindPorts) ∧
      s2.Servers = sampleSetting.Servers) ∧
    (sliceEntries (sampleSetting.DeleteServer "192.168.0.1" 80).Servers
        = (sliceEntries sampleSetting.Servers).filter
            (fun v => decide (¬ (v.IPAddress = "192.168.0.1" ∧ v.Port = 80))) ∧
      (∀ v, v ∈ sliceEntries (sampleSetting.DeleteServer "192.168.0.1" 80).Servers →
        ¬ (v.IPAddress = "192.168.0.1" ∧ v.Port = 80)) ∧
      (∀ v, v ∈ sliceEntries sampleSetting.Servers →
        ¬ (v.IPAddress = "192.168.0.1" ∧ v.Port = 80) →
        v ∈ sliceEntries (sampleSetting.DeleteServer "192.168.0.1" 80).Servers) ∧
      (sliceEntries (sampleSetting.DeleteServer "192.168.0.1" 80).Servers).Sublist
        (sliceEntries sampleSetting.Servers) ∧
      (sampleSetting.DeleteServer "192.168.0.1" 80).BindPorts = sampleSetting.BindPorts)) :=
  ⟨rfl, by decide, by decide,
    Delete_removes_matching_entries sampleSetting
      [sampleBindPort "http" 80, sampleBindPort "https" 443, sampleBindPort "http" 8080]
      "http" 80 "192.168.0.1" 80 rfl⟩

/-! ## Server-group tags -/

/-- C22: the code at the constants.  `TagGroupA` is `@group=a` and `TagGroupB`
is `@group=b`, but `TagGroupC` and `TagGroupD` are both `@group=b` as well:
they equal `TagGroupB` and each other, and are not `@group=c` and `@group=d`. -/
theorem TagGroup_C_and_D_equal_B :
    TagGroupA = "@group=a" ∧ TagGroupB = "@group=b" ∧
    TagGroupC = "@group=b" ∧ TagGroupD = "@group=b" ∧
    TagGroupC = TagGroupB ∧ TagGroupD = TagGroupB ∧ TagGroupC = TagGroupD ∧
    TagGroupC ≠ "@group=c" ∧ TagGroupD ≠ "@group=d" := by
  refine ⟨rfl, rfl, rfl, rfl, rfl, rfl, rfl, by decide, by decide⟩

/-! ## ProxyLB certificates -/

/-- The loop of `RemoveAdditionalCertAt` has appended the remaining elements
but the one whose index is `index`, in order. -/
theorem RemoveAdditionalCertAtLoop_entries (index : Int)
    (l : List (Option ProxyLBCertificate)) :
    ∀ (i : Nat) (certs : Option (List (Option ProxyLBCertificate))),
      sliceEntries (RemoveAdditionalCertAtLoop index l i certs)
        = sliceEntries certs
          ++ (if (i : Int) ≤ index ∧ index < (i : Int) + (l.length : Int) then
                l.eraseIdx (index - (i : Int)).toNat
              else l) := by
  induction l with
  | nil =>
    intro i certs
    simp [RemoveAdditionalCertAtLoop]
  | cons c rest ih =>
    intro i certs
    by_cases h : (i : Int) = index
    · subst h
      have hfalse : ¬ (((i + 1 : Nat) : Int) ≤ (i : Int) ∧
          (i : Int) < ((i + 1 : Nat) : Int) + (rest.length : Int)) := by
        push_cast
        omega
      have htrue : (i : Int) ≤ (i : Int) ∧ (i : Int) < (i : Int) + ((c :: rest).length : Int) := by
        simp only [List.length_cons]
        push_cast
        omega
      have hzero : ((i : Int) - (i : Int)).toNat = 0 := by omega
      simp only [RemoveAdditionalCertAtLoop, ne_eq, not_true_eq_false, if_false]
      rw [ih, if_neg hfalse, if_pos htrue, hzero]
      rfl
    · simp only [RemoveAdditionalCertAtLoop, ne_eq, h, not_false_eq_true, if_true]
      rw [ih, sliceEntries_appendSlice]
      by_cases hin : (i : Int) ≤ index ∧ index < (i : Int) + ((c :: rest).length : Int)
      · have hin2 : ((i + 1 : Nat) : Int) ≤ index ∧
            index < ((i + 1 : Nat) : Int) + (rest.length : Int) := by
          simp only [List.length_cons] at hin
          push_cast at hin ⊢
          omega
        have hsucc : (index - (i : Int)).toNat = (index - ((i + 1 : Nat) : Int)).toNat + 1 := by
          push_cast
          omega
        rw [if_pos hin, if_pos hin2, hsucc, List.eraseIdx_cons_succ]
        simp
      · have hin2 : ¬ (((i + 1 : Nat) : Int) ≤ index ∧
            index < ((i + 1 : Nat) : Int) + (rest.length : Int)) := by
          simp only [List.length_cons] at hin
          push_cast at hin ⊢
          omega
        rw [if_neg hin, if_neg hin2]
        simp

/-- C23: `RemoveAdditionalCertAt(index)`, for every list of additional
certificates and every index.  When `0 <= index < len` the certificates
afterwards are the original list without its element at `index`, the others
in their order, `len - 1` of them; for every other index they are the original
list.  The primary certificate is left as it was. -/
theorem RemoveAdditionalCertAt_removes_index (p : ProxyLBCertificates) (index : Int) :
    sliceEntries (p.RemoveAdditionalCertAt index).AdditionalCerts
      = (if 0 ≤ index ∧ index < ((sliceEntries p.AdditionalCerts).length : Int) then
          (sliceEntries p.AdditionalCerts).eraseIdx index.toNat
        else sliceEntries p.AdditionalCerts) ∧
    sliceEntries (p.RemoveAdditionalCertAt index).AdditionalCerts
      = (if 0 ≤ index ∧ index < ((sliceEntries p.AdditionalCerts).length : Int) then
          (sliceEntries p.AdditionalCerts).take index.toNat
            ++ (sliceEntries p.AdditionalCerts).drop (index.toNat + 1)
        else sliceEntries p.AdditionalCerts) ∧
    (sliceEntries (p.RemoveAdditionalCertAt index).AdditionalCerts).length
      = (if 0 ≤ index ∧ index < ((sliceEntries p.AdditionalCerts).length : Int) then
          (sliceEntries p.AdditionalCerts).length - 1
        else (sliceEntries p.AdditionalCerts).length) ∧
    (p.RemoveAdditionalCertAt index).PrimaryCert = p.PrimaryCert := by
  have hloop := RemoveAdditionalCertAtLoop_entries index (sliceEntries p.AdditionalCerts) 0 none
  have hentries : sliceEntries (p.RemoveAdditionalCertAt index).AdditionalCerts
      = (if 0 ≤ index ∧ index < ((sliceEntries p.AdditionalCerts).length : Int) then
          (sliceEntries p.AdditionalCerts).eraseIdx index.toNat
        else sliceEntries p.AdditionalCerts) := by
    show sliceEntries (RemoveAdditionalCertAtLoop index (sliceEntries p.AdditionalCerts) 0 none)
      = _
    rw [hloop]
    simp [sliceEntries]
  refine ⟨hentries, ?_, ?_, rfl⟩
  · rw [hentries]
    split
    · exact List.eraseIdx_eq_take_drop_succ _ _
    · rfl
  · rw [hentries]
    split
    · next hin =>
      rw [List.length_eraseIdx]
      have hlt : index.toNat < (sliceEntries p.AdditionalCerts).length := by omega
      simp [hlt]
    · rfl

/-! ## Switch: termination of the address loop -/

/-- When the last byte of `Min` exceeds the upper bound, the loop returns at
once, with nothing appended. -/
theorem GetIPAddressListLoop_min_gt_max (baseIP : IPv4) (min max : Nat) (hmin : min < 256)
    (hgt : max < min) (fuel : Nat) (ret : List String) :
    GetIPAddressListLoop baseIP min max (fuel + 1) 0 ret = Outcome.returned ret := by
  have hmod : (min + 0) % 256 = min := by simpa using Nat.mod_eq_of_lt hmin
  have hcond : ¬ (min + 0) % 256 ≤ max := by rw [hmod]; omega
  simp only [GetIPAddressListLoop, hcond, if_false]

/-- The method `GetIPAddressList` on a switch whose first subnet has
addresses that parse returns, given enough fuel, exactly when the last byte of
`Max` is below `255`; this includes the case of `Min` above `Max`. -/
theorem GetIPAddressList_returns_iff (parseTo4 : String → Option IPv4) (s : Switch)
    (subnet : SwitchSubnet) (rest : List SwitchSubnet) (baseIP maxIP : IPv4)
    (hs : s.Subnets = some (subnet :: rest))
    (hmin : parseTo4 subnet.IPAddresses.Min = some baseIP)
    (hmax : parseTo4 subnet.IPAddresses.Max = some maxIP)
    (hb : baseIP.b3 < 256) :
    (∃ fuel res, s.GetIPAddressList parseTo4 fuel = Outcome.returned res) ↔ maxIP.b3 ≤ 254 := by
  constructor
  · rintro ⟨fuel, res, hres⟩
    by_contra hgt
    rw [GetIPAddressList_of_max_255 parseTo4 s subnet rest baseIP maxIP hs hmin hmax
      (by omega) fuel] at hres
    cases hres
  · intro h254
    by_cases hle : baseIP.b3 ≤ maxIP.b3
    · exact ⟨maxIP.b3 - baseIP.b3 + 2, _,
        GetIPAddressList_of_valid parseTo4 s subnet rest baseIP maxIP _ hs hmin hmax hle h254
          (by omega)⟩
    · have hmiss : s.subnetsMissing = false := by simp [Switch.subnetsMissing, hs]
      have hfirst : (s.Subnets.bind fun subnets => subnets[0]?) = some subnet := by simp [hs]
      have hloop := GetIPAddressListLoop_min_gt_max baseIP baseIP.b3 maxIP.b3 hb
        (by omega) 0 []
      refine ⟨1, (some [], none), ?_⟩
      simp only [Switch.GetIPAddressList, hmiss, Bool.false_eq_true, if_false, hfirst, hmin,
        hmax, hloop]

/-- C26: the code at the failing inputs.  With `Max` ending in `.255` the
method does not return, whatever the fuel, be `Min` `10.0.0.1` or
`10.0.0.255`.  With `Min` above `Max` (`10.0.0.9` and `10.0.0.2`) it returns
the empty list at once, and with `Max = 10.0.0.3` above `Min = 10.0.0.1` it
returns after three rounds. -/
theorem GetIPAddressList_does_not_terminate_at_255 :
    (∀ fuel : Nat,
      (sampleSwitch "10.0.0.1" "10.0.0.255").GetIPAddressList sampleParseTo4 fuel
        = Outcome.outOfFuel) ∧
    (∀ fuel : Nat,
      (sampleSwitch "10.0.0.255" "10.0.0.255").GetIPAddressList sampleParseTo4 fuel
        = Outcome.outOfFuel) ∧
    (sampleSwitch "10.0.0.9" "10.0.0.2").GetIPAddressList sampleParseTo4 1
      = Outcome.returned (some [], none) ∧
    (sampleSwitch "10.0.0.1" "10.0.0.3").GetIPAddressList sampleParseTo4 4
      = Outcome.returned (some ["10.0.0.1", "10.0.0.2", "10.0.0.3"], none) := by
  refine ⟨?_, ?_, by decide, by decide⟩
  · intro fuel
    exact GetIPAddressList_of_max_255 sampleParseTo4 _
      { IPAddresses := { Min := "10.0.0.1", Max := "10.0.0.255" } } []
      { b0 := 10, b1 := 0, b2 := 0, b3 := 1 } { b0 := 10, b1 := 0, b2 := 0, b3 := 255 }
      rfl (by decide) (by decide) (by decide) fuel
  · intro fuel
    exact GetIPAddressList_of_max_255 sampleParseTo4 _
      { IPAddresses := { Min := "10.0.0.255", Max := "10.0.0.255" } } []
      { b0 := 10, b1 := 0, b2 := 0, b3 := 255 } { b0 := 10, b1 := 0, b2 := 0, b3 := 255 }
      rfl (by decide) (by decide) (by decide) fuel

end sacloud

namespace branching

/-! ## Routing: diagnostics and frame -/

/-- C24: `ServeHTTP` writes a diagnostic exactly when evaluation returns an
error: one entry, carrying the error's message, when the error is not `nil`,
and none when it is `nil`.  The error goes nowhere else: the last call of
`ServeHTTP` is the invocation of a handler with the response writer and the
request received, the only handler call, selected by the boolean alone, and
the effect of `ServeHTTP` is the diagnostic, if any, followed by that
handler. -/
theorem ServeHTTP_logs_exactly_on_error {RW Req W : Type} (e : Branching RW Req W)
    (rw : RW) (req : Req) :
    ((e.ServeHTTP rw req).countP Call.isLogCall = 1 ↔ (e.matcher.Evaluate req).2 ≠ none) ∧
    ((e.ServeHTTP rw req).countP Call.isLogCall = 0 ↔ (e.matcher.Evaluate req).2 = none) ∧
    (e.ServeHTTP rw req).filter Call.isLogCall
      = (match (e.matcher.Evaluate req).2 with
          | some err =>
            [Call.logPrintf ("ignoring branch, unable to match request: " ++ err.Error)]
          | none => []) ∧
    (e.ServeHTTP rw req).getLast?
      = some (if (e.matcher.Evaluate req).1 then Call.branchServeHTTP rw req
          else Call.nextServeHTTP rw req) ∧
    (e.ServeHTTP rw req).filter Call.isHandlerCall
      = [if (e.matcher.Evaluate req).1 then Call.branchServeHTTP rw req
          else Call.nextServeHTTP rw req] ∧
    ∀ (logger : String → W → W) (w : W),
      e.run logger rw req w
        = e.delegate req rw req
            (match (e.matcher.Evaluate req).2 with
              | some err => logger ("ignoring branch, unable to match request: " ++ err.Error) w
              | none => w) := by
  refine ⟨?_, ?_, ?_, ?_, ?_, fun logger w => run_eq_delegate e logger rw req w⟩ <;>
  · rcases hres : e.matcher.Evaluate req with ⟨matched, err⟩
    cases err with
    | none =>
      rw [ServeHTTP_of_success e rw req matched hres]
      cases matched <;> simp [Call.isLogCall, Call.isHandlerCall]
    | some err =>
      rw [ServeHTTP_of_failure e rw req matched err hres]
      cases matched <;> simp [Call.isLogCall, Call.isHandlerCall]

/-- C25: in every outcome each call `ServeHTTP` makes is a diagnostic through
the logger or the invocation of a handler with the very response writer and
request it received, and exactly one call is such an invocation.  The world
the handler starts from differs from the world at entry by the logger's
output only: everything the logger leaves alone, the response included, is as
it was at entry, so whatever is written to the response is written by the
handler delegated to. -/
theorem ServeHTTP_writes_nothing_itself {RW Req W : Type} (e : Branching RW Req W)
    (rw : RW) (req : Req) (logger : String → W → W) (w : W) :
    (∀ c, c ∈ e.ServeHTTP rw req →
      c.isLogCall = true ∨ c = Call.branchServeHTTP rw req ∨ c = Call.nextServeHTTP rw req) ∧
    ((e.ServeHTTP rw req).filter Call.isHandlerCall).length = 1 ∧
    ∃ w0, e.run logger rw req w = e.delegate req rw req w0 ∧
      ∀ (R : Type) (observe : W → R),
        (∀ msg w1, observe (logger msg w1) = observe w1) → observe w0 = observe w := by
  refine ⟨?_, ?_, ?_⟩
  · rcases hres : e.matcher.Evaluate req with ⟨matched, err⟩
    cases err with
    | none =>
      rw [ServeHTTP_of_success e rw req matched hres]
      cases matched <;> simp [Call.isLogCall]
    | some err =>
      rw [ServeHTTP_of_failure e rw req matched err hres]
      cases matched <;> simp [Call.isLogCall]
  · rcases hres : e.matcher.Evaluate req with ⟨matched, err⟩
    cases err with
    | none =>
      rw [ServeHTTP_of_success e rw req matched hres]
      cases matched <;> simp [Call.isHandlerCall]
    | some err =>
      rw [ServeHTTP_of_failure e rw req matched err hres]
      cases matched <;> simp [Call.isHandlerCall]
  · refine ⟨_, run_eq_delegate e logger rw req w, ?_⟩
    intro R observe hlog
    cases (e.matcher.Evaluate req).2 with
    | none => rfl
    | some err => exact hlog _ _

end branching
